import Mathlib

/-!
# Verification of the support-agent orchestration core

Shallow embedding of the LangGraph support agent
(`src/agents/support_agent.py`, `src/tools/rag_tool.py`,
`src/storage/vector_store.py`, `src/core/models.py`, `src/core/config.py`).

Conventions of the embedding:
* Python floats are modelled as exact rationals (`ℚ`).
* Python strings are modelled as Lean `String`s; the handful of string
  operations the code uses (`split`, `strip`, `lower`, substring test,
  `float(...)` parsing, `re.findall` for the one fixed pattern) are
  re-implemented below over `List Char` exactly as CPython behaves on them.
  `float(...)` is modelled on its decimal grammar (sign, digits, optional
  point and exponent); exotic spellings (`inf`, `nan`, underscores) are out
  of scope and treated as parse failures.
* LLM calls and the vector store are external collaborators: they enter as
  an `Oracle` of responses, each either a reply or a raised exception
  (`Except String`).
* Python exceptions are modelled as `Except.error msg`; the orchestrator's
  `try/except` is the `match` in `processMessage`.
-/

set_option maxRecDepth 40000

/-! ## Python string primitives -/

/-- Python whitespace for `str.strip()` (the characters CPython strips). -/
def pyIsSpace (c : Char) : Bool :=
  c = ' ' || c = '\t' || c = '\n' || c = '\r' || c = '\x0b' || c = '\x0c'

/-- `str.strip()` on a character list. -/
def stripL (l : List Char) : List Char :=
  ((l.dropWhile pyIsSpace).reverse.dropWhile pyIsSpace).reverse

/-- `str.lower()` on a single character (ASCII, which is all the code feeds it). -/
def pyLowerChar (c : Char) : Char :=
  if 'A' ≤ c ∧ c ≤ 'Z' then Char.ofNat (c.toNat + 32) else c

/-- `str.lower()` on a character list. -/
def pyLower (l : List Char) : List Char := l.map pyLowerChar

/-- `response.content.strip().lower()` as used by the classifier and the gate. -/
def pyStripLower (s : String) : String := String.mk (pyLower (stripL s.data))

/-- Python `s.split(sep)` for a one-character separator (no maxsplit). -/
def splitChar (sep : Char) : List Char → List (List Char)
  | [] => [[]]
  | c :: cs =>
    if c = sep then [] :: splitChar sep cs
    else
      match splitChar sep cs with
      | l :: ls => (c :: l) :: ls
      | [] => [[c]]

/-- Python `s.split('\n')`. -/
def splitLines (l : List Char) : List (List Char) := splitChar '\n' l

/-- Python `s.split(sep, 1)`: the part before the first separator, and
(if a separator occurs) the untouched remainder after it. -/
def splitFirst (sep : Char) : List Char → List Char × Option (List Char)
  | [] => ([], none)
  | c :: cs =>
    if c = sep then ([], some cs)
    else
      let p := splitFirst sep cs
      (c :: p.1, p.2)

/-- `p` is a prefix of `l` (Boolean, by character comparison). -/
def isPrefixL : List Char → List Char → Bool
  | [], _ => true
  | _ :: _, [] => false
  | p :: ps, c :: cs => p = c && isPrefixL ps cs

/-- Python `pat in s` (substring occurrence test). -/
def containsL (pat : List Char) : List Char → Bool
  | [] => isPrefixL pat []
  | c :: cs => isPrefixL pat (c :: cs) || containsL pat cs

/-- Python `pat in s` on strings. -/
def pyIn (pat s : String) : Bool := containsL pat.data s.data

/-! ## `float(...)` on its decimal grammar -/

/-- Numeric value of an ASCII digit. -/
def digitVal (c : Char) : Option ℕ :=
  if '0' ≤ c ∧ c ≤ '9' then some (c.toNat - 48) else none

/-- Read a maximal run of digits: accumulated value, number of digits read,
and the rest of the input. -/
def readDigits (acc cnt : ℕ) : List Char → ℕ × ℕ × List Char
  | [] => (acc, cnt, [])
  | c :: cs =>
    match digitVal c with
    | some d => readDigits (acc * 10 + d) (cnt + 1) cs
    | none => (acc, cnt, c :: cs)

/-- Exponent part after `e`/`E`: optional sign then at least one digit,
consuming the whole rest of the input. -/
def readExponent (l : List Char) : Option ℤ :=
  let p : ℤ × List Char :=
    match l with
    | '+' :: r => (1, r)
    | '-' :: r => (-1, r)
    | _ => (1, l)
  let d := readDigits 0 0 p.2
  if d.2.1 = 0 ∨ d.2.2 ≠ [] then none else some (p.1 * d.1)

/-- The parsed value `sgn * (ip.fp) * 10^ex` as an exact rational, built
with `mkRat` over integer arithmetic (`ip` integer part, `fp` fraction
digits value, `fc` fraction digit count). -/
def decimalValue (sgn : ℤ) (ip fp fc : ℕ) (ex : ℤ) : ℚ :=
  let m : ℤ := sgn * Int.ofNat (ip * Nat.pow 10 fc + fp)
  if 0 ≤ ex then mkRat (m * Int.ofNat (Nat.pow 10 ex.toNat)) (Nat.pow 10 fc)
  else mkRat m (Nat.pow 10 fc * Nat.pow 10 (-ex).toNat)

/-- Core of `float(...)`: sign, integer digits, optional fraction, optional
exponent; at least one digit overall; nothing may remain. -/
def pyFloatCore (l : List Char) : Option ℚ :=
  let sp : ℤ × List Char :=
    match l with
    | '+' :: r => (1, r)
    | '-' :: r => (-1, r)
    | _ => (1, l)
  let ip := readDigits 0 0 sp.2
  let fr : ℕ × ℕ × List Char :=
    match ip.2.2 with
    | '.' :: r => readDigits 0 0 r
    | _ => (0, 0, ip.2.2)
  if ip.2.1 = 0 ∧ fr.2.1 = 0 then none
  else
    match fr.2.2 with
    | [] => some (decimalValue sp.1 ip.1 fr.1 fr.2.1 0)
    | e :: r =>
      if e = 'e' ∨ e = 'E' then
        (readExponent r).map (fun ex => decimalValue sp.1 ip.1 fr.1 fr.2.1 ex)
      else none

/-- Python `float(s)` (which strips surrounding whitespace itself);
`none` models a raised `ValueError`. -/
def pythonFloat (l : List Char) : Option ℚ := pyFloatCore (stripL l)

/-! ## Configuration (`src/core/config.py`) -/

/-- The agent-relevant fields of `Settings`. -/
structure Settings where
  confidence_threshold : ℚ
  top_k_results : ℕ
  min_similarity_score : ℚ
deriving DecidableEq, Repr

/-- The defaults declared in `Settings` (0.7 and 0.5, as exact rationals). -/
def defaultSettings : Settings :=
  { confidence_threshold := mkRat 7 10, top_k_results := 5, min_similarity_score := mkRat 1 2 }

/-- Exact rational addition over `mkRat` (kernel-computable; equal to `+`
on `ℚ`, see `ratAdd_eq_add`). -/
def ratAdd (a b : ℚ) : ℚ := mkRat (a.num * b.den + b.num * a.den) (a.den * b.den)

/-- Sum of a list of rationals via `ratAdd`. -/
def ratSum : List ℚ → ℚ
  | [] => 0
  | x :: xs => ratAdd x (ratSum xs)

/-- `1 - x` over `mkRat` (kernel-computable; see `ratOneSub_eq`). -/
def ratOneSub (x : ℚ) : ℚ := mkRat ((x.den : ℤ) - x.num) x.den

/-- `x / n` for a natural `n` over `mkRat` (kernel-computable; see
`ratDivNat_eq`). -/
def ratDivNat (x : ℚ) (n : ℕ) : ℚ := mkRat x.num (x.den * n)

/-! ## Data model (`src/core/models.py`) -/

/-- `RAGResult`: one retrieved document. -/
structure RAGResult where
  content : String
  score : ℚ
  metadata : List (String × String)
  source : String
deriving DecidableEq, Repr

/-- The metadata dictionary `process_message` puts on an `AgentResponse`:
`{"intent", "used_rag"}` on success, `{"error"}` on the fallback path. -/
structure ResponseMetadata where
  intent : Option String
  used_rag : Option Bool
  error : Option String
deriving DecidableEq, Repr

/-- `AgentResponse` (the Final Response record). -/
structure AgentResponse where
  content : String
  confidence : ℚ
  sources : List String
  needs_clarification : Bool
  clarification_question : Option String
  metadata : ResponseMetadata
deriving DecidableEq, Repr

/-- The pydantic constructor of `AgentResponse`: `confidence` is declared
`Field(ge=0.0, le=1.0)`, so an out-of-range value raises a
`ValidationError`. -/
def mkAgentResponse (content : String) (confidence : ℚ) (sources : List String)
    (needs_clarification : Bool) (clarification_question : Option String)
    (metadata : ResponseMetadata) : Except String AgentResponse :=
  if confidence < 0 ∨ 1 < confidence then
    Except.error "1 validation error for AgentResponse: confidence"
  else
    Except.ok ⟨content, confidence, sources, needs_clarification, clarification_question, metadata⟩

/-! ## Vector store (`src/storage/vector_store.py`) -/

/-- One raw row of a ChromaDB query result: document text, cosine distance,
metadata mapping. -/
structure ChromaRow where
  document : String
  distance : ℚ
  metadata : List (String × String)
deriving DecidableEq, Repr

/-- Dictionary lookup `m.get(k)`. -/
def lookupMeta (m : List (String × String)) (k : String) : Option String :=
  (m.find? (fun kv => kv.1 = k)).map (fun kv => kv.2)

/-- `VectorStore.similarity_search`: converts each distance to a similarity
score, keeps rows with `score >= settings.min_similarity_score`, and — its
own `try/except` — returns the empty list when the underlying store raised. -/
def similaritySearch (s : Settings) (raw : Except String (List ChromaRow)) : List RAGResult :=
  match raw with
  | Except.error _ => []
  | Except.ok rows =>
    rows.filterMap (fun row =>
      let score := ratOneSub row.distance
      if score ≥ s.min_similarity_score then
        some { content := row.document, score := score, metadata := row.metadata,
               source := (lookupMeta row.metadata "source").getD "unknown" }
      else none)

/-! ## RAG tool (`src/tools/rag_tool.py`) -/

/-- `RAGTool._format_no_results` (the triple-quoted literal, verbatim). -/
def formatNoResults : String :=
  "\nNo relevant information found in the knowledge base.\nThis might mean:\n1. The information is not in our documentation\n2. The query needs to be rephrased\n3. This requires human assistance\n\nConsider asking the user for clarification or escalating to a human agent.\n"

/-- Render a rational as Python `f"{x:.2f}"` does for the scores at hand
(non-negative values; exact half-up rounding stands in for the binary
double's decimal rendering). `n` is `⌊100 x + 1/2⌋`, computed as the
Euclidean quotient `(200 num + den) / (2 den)`. -/
def fmt2 (x : ℚ) : String :=
  let n : ℤ := Int.ediv (200 * x.num + x.den) (2 * x.den)
  toString (Int.ediv n 100) ++ "." ++
    (if Int.emod n 100 < 10 then "0" ++ toString (Int.emod n 100)
     else toString (Int.emod n 100))

/-- The text appended for one result inside the loop of
`RAGTool._format_results` (iteration index `i` starts at 1). -/
def docBlock (i : ℕ) (r : RAGResult) : String :=
  let s1 := "[Document " ++ toString i ++ "] (confidence: " ++ fmt2 r.score ++ ")\n"
    ++ "Source: " ++ r.source ++ "\n"
    ++ "Content: " ++ r.content ++ "\n"
  let s2 :=
    if r.metadata ≠ [] then
      let metadataStr := String.intercalate ", "
        ((r.metadata.filter (fun kv => kv.1 ≠ "source")).map (fun kv => kv.1 ++ ": " ++ kv.2))
      if metadataStr ≠ "" then s1 ++ "Metadata: " ++ metadataStr ++ "\n" else s1
    else s1
  s2 ++ "\n"

/-- The `for i, result in enumerate(results, 1)` accumulation loop of
`RAGTool._format_results`. -/
def formatLoop (i : ℕ) (acc : String) : List RAGResult → String
  | [] => acc
  | r :: rs => formatLoop (i + 1) (acc ++ docBlock i r) rs

/-- `RAGTool._format_results`. -/
def formatResults (results : List RAGResult) (_query : String) : String :=
  if results = [] then formatNoResults
  else
    let avg : ℚ := ratDivNat (ratSum (results.map RAGResult.score)) results.length
    let header := "Found " ++ toString results.length
      ++ " relevant documents (avg confidence: " ++ fmt2 avg ++ "):\n\n"
    let body := formatLoop 1 header results
    if avg < mkRat 7 10 then
      body ++ "\n⚠️ Note: Confidence is moderate. Consider asking clarifying questions.\n"
    else body

/-- `RAGTool._run`: similarity search, then either the no-results message
or the formatted block. (The store's exception is already absorbed inside
`similarity_search`, so `_run`'s own `except` clause is not reachable from
a store failure.) -/
def ragToolRun (s : Settings) (raw : Except String (List ChromaRow)) (query : String) : String :=
  let results := similaritySearch s raw
  if results = [] then formatNoResults
  else formatResults results query

/-! ## Agent state and oracle (`src/agents/support_agent.py`) -/

/-- `AgentState` (the LangGraph state dict); `messages` holds
(role, content) pairs. -/
structure AgentState where
  messages : List (String × String)
  user_query : String
  intent : String
  needs_rag : Bool
  rag_results : String
  confidence : ℚ
  answer : String
  needs_clarification : Bool
  clarification_question : String
  iteration_count : ℕ
deriving DecidableEq, Repr

/-- The `initial_state` dict built by `process_message`. -/
def initialState (q : String) : AgentState :=
  { messages := [], user_query := q, intent := "", needs_rag := false, rag_results := "",
    confidence := 1, answer := "", needs_clarification := false,
    clarification_question := "", iteration_count := 0 }

/-- External collaborators for one turn: each LLM call maps the prompt it
is sent to a reply or a raised transport error; `storeRaw` is the vector
store's underlying answer (rows, or a raised store error). -/
structure Oracle where
  classify : String → Except String String
  ragDecide : String → Except String String
  generate : String → Except String String
  validate : String → Except String String
  storeRaw : Except String (List ChromaRow)

/-! ## Graph nodes -/

/-- `classify_intent`: one LLM call on the user query; the intent is the
reply stripped and lower-cased, with no taxonomy validation. -/
def classifyIntent (o : String → Except String String) (st : AgentState) :
    Except String AgentState := do
  let resp ← o st.user_query
  pure { st with intent := pyStripLower resp,
                 messages := st.messages ++ [("human", st.user_query)] }

/-- The yes/no prompt built inside `decide_rag`. -/
def decideRagPrompt (st : AgentState) : String :=
  "Does answering this query require searching documentation?\nQuery: "
    ++ st.user_query ++ "\nIntent: " ++ st.intent
    ++ "\n\nAnswer with just \x27yes\x27 or \x27no\x27."

/-- `decide_rag`: heuristic (`greeting`/`other` never need RAG), then, for
all other intents, a binary LLM reconfirmation interpreting exactly
`"yes"` (stripped, lower-cased) as true. -/
def decideRag (o : String → Except String String) (st : AgentState) :
    Except String AgentState :=
  if st.intent ≠ "greeting" ∧ st.intent ≠ "other" then do
    let resp ← o (decideRagPrompt st)
    pure { st with needs_rag := pyStripLower resp = "yes" }
  else
    pure { st with needs_rag := false }

/-- `retrieve_knowledge`: delegates to `rag_tool._run` on the raw query. -/
def retrieveKnowledge (s : Settings) (storeRaw : Except String (List ChromaRow))
    (st : AgentState) : AgentState :=
  { st with rag_results := ragToolRun s storeRaw st.user_query }

/-- The user prompt built inside `generate_answer`: knowledge-base path
when `needs_rag` and a non-empty `rag_results` block are present, else the
general-knowledge path. -/
def generatorUserPrompt (st : AgentState) : String :=
  let base := "User Query: " ++ st.user_query ++ "\nIntent: " ++ st.intent ++ "\n\n"
  if st.needs_rag ∧ st.rag_results ≠ "" then
    base ++ "\nKnowledge Base Results:\n" ++ st.rag_results
      ++ "\n\nBased on the above information, provide a helpful answer. If the knowledge base doesn\x27t contain enough information, be honest about it.\n"
  else
    base ++ "\nProvide a direct, helpful response based on your general knowledge.\n"

/-- `generate_answer`: one LLM call; the completion is stored verbatim. -/
def generateAnswer (o : String → Except String String) (st : AgentState) :
    Except String AgentState := do
  let ans ← o (generatorUserPrompt st)
  pure { st with answer := ans, messages := st.messages ++ [("ai", ans)] }

/-- The validation prompt built inside `validate_answer`. -/
def validationPrompt (st : AgentState) : String :=
  "Review this support interaction:\n\nUser Query: " ++ st.user_query
    ++ "\nAgent Answer: " ++ st.answer
    ++ "\n\nEvaluate:\n1. Is the answer complete and helpful?\n2. Does it require clarification from the user?\n3. Rate confidence (0-1)\n\nRespond in this format:\nCOMPLETE: yes/no\nCLARIFICATION_NEEDED: yes/no\nCONFIDENCE: 0.X\nCLARIFICATION_QUESTION: [if needed, ask a specific question]"

/-- `l.split(':')[1]` for a confidence line: `none` models the
`IndexError` raised when the line has no colon. -/
def confidenceSegment (l : List Char) : Option (List Char) :=
  match splitChar ':' l with
  | _ :: seg :: _ => some seg
  | _ => none

/-- The confidence parse of `validate_answer`:
`float(confidence_line[0].split(':')[1].strip()) if confidence_line else 0.8`.
An invalid decimal raises (`ValueError`), it is never defaulted. -/
def parseConfidence (validation : String) : Except String ℚ :=
  match (splitLines validation.data).filter (fun l => containsL "CONFIDENCE:".data l) with
  | [] => Except.ok (mkRat 4 5)
  | l :: _ =>
    match confidenceSegment l with
    | some seg =>
      match pythonFloat seg with
      | some q => Except.ok q
      | none =>
        Except.error ("could not convert string to float: \x27" ++ String.mk (stripL seg) ++ "\x27")
    | none => Except.error "IndexError: list index out of range"

/-- The clarification-question extraction of `validate_answer` (only taken
when the textual flag was present): text after the first colon of the
first `CLARIFICATION_QUESTION:` line, stripped; `""` when no such line. -/
def parseClarificationQuestion (validation : String) : Except String String :=
  match (splitLines validation.data).filter
      (fun l => containsL "CLARIFICATION_QUESTION:".data l) with
  | [] => Except.ok ""
  | l :: _ =>
    match (splitFirst ':' l).2 with
    | some rest => Except.ok (String.mk (stripL rest))
    | none => Except.error "IndexError: list index out of range"

/-- `validate_answer` applied to the validator's reply: parses the flag,
the confidence and (conditionally) the clarification question, and stores
`needs_clarification` as flag AND `confidence < confidence_threshold`. -/
def validateAnswer (s : Settings) (resp : Except String String) (st : AgentState) :
    Except String AgentState := do
  let validation ← resp
  let needs := pyIn "CLARIFICATION_NEEDED: yes" validation
  let conf ← parseConfidence validation
  let cq ← if needs then parseClarificationQuestion validation else pure ""
  pure { st with confidence := conf,
                 needs_clarification := needs && decide (conf < s.confidence_threshold),
                 clarification_question := cq }

/-- `ask_clarification`: appends, on two newlines, the stored question or
the generic fallback when it is empty. -/
def askClarification (st : AgentState) : AgentState :=
  let c := if st.clarification_question ≠ "" then st.clarification_question
           else "Could you provide more details about your question?"
  { st with answer := st.answer ++ "\n\n" ++ c }

/-- `route_after_rag_decision`. -/
def routeAfterRagDecision (st : AgentState) : String :=
  if st.needs_rag then "retrieve" else "direct"

/-- `route_after_validation`. -/
def routeAfterValidation (s : Settings) (st : AgentState) : String :=
  if st.needs_clarification ∧ st.confidence < s.confidence_threshold then "clarify"
  else "complete"

/-! ## The compiled graph -/

/-- The generate → validate → (clarify?) tail of the graph, accumulating
the trace of executed nodes. -/
def runTail (s : Settings) (o : Oracle) (st : AgentState) (tr : List String) :
    Except String AgentState × List String :=
  match generateAnswer o.generate st with
  | Except.error e => (Except.error e, tr ++ ["generate_answer"])
  | Except.ok st4 =>
    match validateAnswer s (o.validate (validationPrompt st4)) st4 with
    | Except.error e => (Except.error e, tr ++ ["generate_answer", "validate_answer"])
    | Except.ok st5 =>
      if routeAfterValidation s st5 = "clarify" then
        (Except.ok (askClarification st5),
         tr ++ ["generate_answer", "validate_answer", "ask_clarification"])
      else
        (Except.ok st5, tr ++ ["generate_answer", "validate_answer"])

/-- One run of the compiled graph: entry `classify_intent`, edge to
`decide_rag`, conditional branch to `retrieve_knowledge` or directly to
`generate_answer`, then the common tail. Returns the terminal state (or
the first uncaught exception) together with the list of nodes executed. -/
def runGraphT (s : Settings) (o : Oracle) (q : String) :
    Except String AgentState × List String :=
  match classifyIntent o.classify (initialState q) with
  | Except.error e => (Except.error e, ["classify_intent"])
  | Except.ok st1 =>
    match decideRag o.ragDecide st1 with
    | Except.error e => (Except.error e, ["classify_intent", "decide_rag"])
    | Except.ok st2 =>
      if routeAfterRagDecision st2 = "retrieve" then
        runTail s o (retrieveKnowledge s o.storeRaw st2)
          ["classify_intent", "decide_rag", "retrieve_knowledge"]
      else
        runTail s o st2 ["classify_intent", "decide_rag"]

/-! ## Source extraction (`process_message`, regex `Source: (.+?)(?:\n|$)`) -/

/-- The literal part of the pattern. -/
def srcPat : List Char := "Source: ".data

/-- Characters of the current line (up to the first `'\n'`), and the rest
of the input after that newline. -/
def takeLine (l : List Char) : List Char × List Char :=
  (l.takeWhile (fun c => c ≠ '\n'), (l.dropWhile (fun c => c ≠ '\n')).tail)

/-- `re.findall(r'Source: (.+?)(?:\n|$)', s)`, fuelled so that the
recursion is structural: scan left to right; at a position where the
literal `Source: ` matches and is followed by at least one non-newline
character, capture up to the next newline (or the end) and resume after
it; otherwise advance one character. The fuel only needs to dominate the
length of the input (see `findSources`). -/
def findSourcesFuel : ℕ → List Char → List String
  | 0, _ => []
  | _, [] => []
  | fuel + 1, c :: cs =>
    if isPrefixL srcPat (c :: cs) then
      let cap := (takeLine (cs.drop 7)).1
      let rest := (takeLine (cs.drop 7)).2
      if cap = [] then findSourcesFuel fuel cs
      else String.mk cap :: findSourcesFuel fuel rest
    else findSourcesFuel fuel cs

/-- `re.findall(r'Source: (.+?)(?:\n|$)', s)`. -/
def findSources (l : List Char) : List String := findSourcesFuel l.length l

/-- The source extraction in `process_message`: `re.findall` is only run
when `rag_results` is truthy (non-empty). -/
def extractSources (ragResults : String) : List String :=
  if ragResults = "" then [] else findSources ragResults.data

/-! ## `process_message` -/

/-- The canned apology of the turn-level fallback. -/
def apologyText : String :=
  "I apologize, but I encountered an error processing your request. Please try again or contact support."

/-- `process_message`: run the graph, extract sources from the final
`rag_results`, assemble the `AgentResponse`; any exception raised anywhere
inside the `try` block is converted into the canned fallback response with
confidence 0.0, no sources, and the error string in metadata. -/
def processMessage (s : Settings) (o : Oracle) (userMessage : String) : AgentResponse :=
  let attempt : Except String AgentResponse := do
    let fs ← (runGraphT s o userMessage).1
    mkAgentResponse fs.answer fs.confidence (extractSources fs.rag_results)
      fs.needs_clarification (some fs.clarification_question)
      { intent := some fs.intent, used_rag := some fs.needs_rag, error := none }
  match attempt with
  | Except.ok r => r
  | Except.error e =>
    { content := apologyText, confidence := 0, sources := [],
      needs_clarification := false, clarification_question := none,
      metadata := { intent := none, used_rag := none, error := some e } }

/-! ## Spec-described variants (for comparison with the code) -/

/-- The spec's description of the confidence parse (§4.5): the first line
containing `CONFIDENCE:`, the text after the *first* colon of that line,
trimmed, parsed as a decimal; 0.8 when no such line exists. -/
def specConfidenceAfterFirstColon (validation : String) : Option ℚ :=
  match (splitLines validation.data).filter (fun l => containsL "CONFIDENCE:".data l) with
  | [] => some (mkRat 4 5)
  | l :: _ =>
    match (splitFirst ':' l).2 with
    | some rest => pythonFloat (stripL rest)
    | none => none

/-- The amended description of the confidence parse: as above, but the
text taken is the one *between* the first and the second colon of the line
(Python `l.split(':')[1]`). -/
def specConfidenceBetweenColons (validation : String) : Option ℚ :=
  match (splitLines validation.data).filter (fun l => containsL "CONFIDENCE:".data l) with
  | [] => some (mkRat 4 5)
  | l :: _ =>
    match (splitFirst ':' l).2 with
    | some rest => pythonFloat (stripL (rest.takeWhile (fun c => c ≠ ':')))
    | none => none

/-- The spec's description of source extraction (§4.7): scan the
retrieved-knowledge block for *lines beginning with* the literal
`Source: `, one (non-empty) capture per such line, in order. -/
def specSourcesByLineStart (t : String) : List String :=
  (splitLines t.data).filterMap (fun l =>
    if isPrefixL srcPat l ∧ l.drop 8 ≠ [] then some (String.mk (l.drop 8)) else none)

/-- Remainder of a line after the first occurrence of `Source: ` in it, if any. -/
def afterFirstMarker : List Char → Option (List Char)
  | [] => none
  | c :: cs =>
    if isPrefixL srcPat (c :: cs) then some (cs.drop 7) else afterFirstMarker cs

/-- The amended per-line capture: the (non-empty) remainder of the line
after the first occurrence of `Source: ` anywhere in the line. -/
def lineSourceCapture (l : List Char) : Option String :=
  match afterFirstMarker l with
  | some r => if r = [] then none else some (String.mk r)
  | none => none

/-- The amended description of source extraction: one capture per line
*containing* `Source: `, in order. -/
def specSourcesAnywhere (t : String) : List String :=
  (splitLines t.data).filterMap lineSourceCapture

/-- Equality of modelled outcomes (`Except`) is decidable. -/
instance exceptDecEq {e a : Type} [DecidableEq e] [DecidableEq a] :
    DecidableEq (Except e a) := fun x y =>
  match x, y with
  | Except.ok u, Except.ok v =>
    if h : u = v then isTrue (by rw [h]) else isFalse (by simp [h])
  | Except.error u, Except.error v =>
    if h : u = v then isTrue (by rw [h]) else isFalse (by simp [h])
  | Except.ok _, Except.error _ => isFalse (by simp)
  | Except.error _, Except.ok _ => isFalse (by simp)

/-- An oracle whose LLM replies are constants (ignoring the prompts) and
whose store returns `raw`; used to instantiate theorems at concrete turns. -/
def constOracle (c d g v : String) (raw : Except String (List ChromaRow)) : Oracle :=
  { classify := fun _ => Except.ok c, ragDecide := fun _ => Except.ok d,
    generate := fun _ => Except.ok g, validate := fun _ => Except.ok v,
    storeRaw := raw }

/-- A concrete retrieved document used to instantiate theorems. -/
def c9row : RAGResult :=
  { content := "text", score := mkRat 3 5,
    metadata := [("source", "a.pdf"), ("page", "3")], source := "a.pdf" }

/-- A stored document whose *content* contains `Source: ` in the middle of
a line (`xxSource: evil`). -/
def c7row : ChromaRow :=
  { document := "c\nxxSource: evil", distance := 0, metadata := [("source", "real.pdf")] }

/-- A turn that retrieves `c7row` and then completes normally. -/
def c7oracle : Oracle :=
  constOracle "question" "yes" "Answer." "CONFIDENCE: 0.9" (Except.ok [c7row])

/-- The retrieved-knowledge block of that turn. -/
def c7text : String := ragToolRun defaultSettings (Except.ok [c7row]) "q"

/-! # Lemmas -/

/-! ## Bridges between the `mkRat` computation cores and the field `ℚ` -/

theorem ratAdd_eq_add (a b : ℚ) : ratAdd a b = a + b := by
  unfold ratAdd
  rw [Rat.mkRat_eq_divInt, Rat.divInt_eq_div]
  have ha : (a.den : ℚ) ≠ 0 := by exact_mod_cast a.den_ne_zero
  have hb : (b.den : ℚ) ≠ 0 := by exact_mod_cast b.den_ne_zero
  have h1 : (a.num : ℚ) = a * a.den := (div_eq_iff ha).mp (Rat.num_div_den a)
  have h2 : (b.num : ℚ) = b * b.den := (div_eq_iff hb).mp (Rat.num_div_den b)
  have hD : (((a.den * b.den : ℕ) : ℤ) : ℚ) ≠ 0 := by
    push_cast
    exact mul_ne_zero ha hb
  rw [div_eq_iff hD]
  push_cast
  rw [h1, h2]
  ring

theorem ratSum_eq_sum (l : List ℚ) : ratSum l = l.sum := by
  induction l with
  | nil => simp [ratSum]
  | cons x xs ih => simp [ratSum, ratAdd_eq_add, ih]

theorem ratOneSub_eq (x : ℚ) : ratOneSub x = 1 - x := by
  unfold ratOneSub
  rw [Rat.mkRat_eq_divInt, Rat.divInt_eq_div]
  have hx : (x.den : ℚ) ≠ 0 := by exact_mod_cast x.den_ne_zero
  have h1 : (x.num : ℚ) = x * x.den := (div_eq_iff hx).mp (Rat.num_div_den x)
  rw [div_eq_iff (by push_cast; exact hx : (((x.den : ℤ)) : ℚ) ≠ 0)]
  push_cast
  rw [h1]
  ring

theorem ratDivNat_eq (x : ℚ) (n : ℕ) : ratDivNat x n = x / n := by
  unfold ratDivNat
  rw [Rat.mkRat_eq_divInt, Rat.divInt_eq_div]
  push_cast
  rw [← div_div, Rat.num_div_den]

theorem defaultSettings_threshold : defaultSettings.confidence_threshold = 7/10 := by
  show mkRat 7 10 = 7/10
  rw [Rat.mkRat_eq_divInt, Rat.divInt_eq_div]
  norm_num

/-! ## Substring and split facts -/

theorem isPrefixL_mem {pat l : List Char} (h : isPrefixL pat l = true) :
    ∀ c ∈ pat, c ∈ l := by
  induction pat generalizing l with
  | nil => simp
  | cons p ps ih =>
    cases l with
    | nil => simp [isPrefixL] at h
    | cons x xs =>
      simp only [isPrefixL, Bool.and_eq_true, decide_eq_true_eq] at h
      intro c hc
      rcases List.mem_cons.mp hc with rfl | hc
      · simp [h.1]
      · exact List.mem_cons_of_mem _ (ih h.2 c hc)

theorem containsL_mem {pat l : List Char} (h : containsL pat l = true) :
    ∀ c ∈ pat, c ∈ l := by
  induction l with
  | nil => exact isPrefixL_mem h
  | cons x xs ih =>
    simp only [containsL, Bool.or_eq_true] at h
    rcases h with h | h
    · exact isPrefixL_mem h
    · exact fun c hc => List.mem_cons_of_mem _ (ih h c hc)

theorem splitFirst_isSome {c : Char} {l : List Char} (h : c ∈ l) :
    (splitFirst c l).2.isSome = true := by
  induction l with
  | nil => simp at h
  | cons x xs ih =>
    simp only [splitFirst]
    rcases List.mem_cons.mp h with rfl | h
    · simp
    · split
      · simp
      · simpa using ih h

/-! ## `validate_answer` characterization -/

theorem parseClarificationQuestion_ok (v : String) :
    ∃ cq, parseClarificationQuestion v = Except.ok cq := by
  unfold parseClarificationQuestion
  set lines := (splitLines v.data).filter
    (fun l => containsL "CLARIFICATION_QUESTION:".data l) with hlines
  cases hl : lines with
  | nil => exact ⟨"", rfl⟩
  | cons l ls =>
    have hmem : l ∈ lines := by simp [hl]
    have hcont : containsL "CLARIFICATION_QUESTION:".data l = true := by
      rw [hlines] at hmem
      exact (List.mem_filter.mp hmem).2
    have hcolon : ':' ∈ l := containsL_mem hcont ':' (by decide)
    have hsome := splitFirst_isSome hcolon
    cases hsp : (splitFirst ':' l).2 with
    | none => rw [hsp] at hsome; simp at hsome
    | some rest => exact ⟨String.mk (stripL rest), by simp [hsp]⟩

theorem validateAnswer_ok_of_parse (s : Settings) (v : String) (st : AgentState)
    (conf : ℚ) (hpc : parseConfidence v = Except.ok conf) :
    ∃ cq, validateAnswer s (Except.ok v) st =
      Except.ok { st with confidence := conf,
                          needs_clarification :=
                            pyIn "CLARIFICATION_NEEDED: yes" v
                              && decide (conf < s.confidence_threshold),
                          clarification_question := cq } := by
  obtain ⟨cq, hcq⟩ := parseClarificationQuestion_ok v
  unfold validateAnswer
  simp only [bind, Except.bind, hpc]
  cases hflag : pyIn "CLARIFICATION_NEEDED: yes" v with
  | false => exact ⟨"", by simp [pure, Except.pure]⟩
  | true => exact ⟨cq, by simp [hcq, pure, Except.pure]⟩

theorem validateAnswer_error_of_parse (s : Settings) (v : String) (st : AgentState)
    (m : String) (hpc : parseConfidence v = Except.error m) :
    validateAnswer s (Except.ok v) st = Except.error m := by
  unfold validateAnswer
  simp [bind, Except.bind, hpc]

theorem validateAnswer_ok_shape (s : Settings) (v : String) (st st' : AgentState)
    (h : validateAnswer s (Except.ok v) st = Except.ok st') :
    parseConfidence v = Except.ok st'.confidence ∧
    st'.needs_clarification =
      (pyIn "CLARIFICATION_NEEDED: yes" v
        && decide (st'.confidence < s.confidence_threshold)) ∧
    st'.answer = st.answer ∧ st'.needs_rag = st.needs_rag ∧
    st'.rag_results = st.rag_results := by
  cases hpc : parseConfidence v with
  | error m => rw [validateAnswer_error_of_parse s v st m hpc] at h; cases h
  | ok conf =>
    obtain ⟨cq, hform⟩ := validateAnswer_ok_of_parse s v st conf hpc
    rw [hform] at h
    cases h
    simp [hpc]

/-! ## Node equations -/

theorem classifyIntent_eq_ok (o : String → Except String String) (st : AgentState)
    (c : String) (h : o st.user_query = Except.ok c) :
    classifyIntent o st = Except.ok
      { st with intent := pyStripLower c,
                messages := st.messages ++ [("human", st.user_query)] } := by
  simp [classifyIntent, bind, Except.bind, h, pure, Except.pure]

theorem classifyIntent_eq_error (o : String → Except String String) (st : AgentState)
    (e : String) (h : o st.user_query = Except.error e) :
    classifyIntent o st = Except.error e := by
  simp [classifyIntent, bind, Except.bind, h]

theorem decideRag_eq_skip (o : String → Except String String) (st : AgentState)
    (h : st.intent = "greeting" ∨ st.intent = "other") :
    decideRag o st = Except.ok { st with needs_rag := false } := by
  unfold decideRag
  rcases h with h | h <;> rw [if_neg] <;> simp [h, pure, Except.pure]

theorem decideRag_eq_ask (o : String → Except String String) (st : AgentState)
    (d : String) (h : st.intent ≠ "greeting" ∧ st.intent ≠ "other")
    (hd : o (decideRagPrompt st) = Except.ok d) :
    decideRag o st = Except.ok { st with needs_rag := pyStripLower d = "yes" } := by
  unfold decideRag
  rw [if_pos h]
  simp [bind, Except.bind, hd, pure, Except.pure]

theorem decideRag_eq_error (o : String → Except String String) (st : AgentState)
    (e : String) (h : st.intent ≠ "greeting" ∧ st.intent ≠ "other")
    (hd : o (decideRagPrompt st) = Except.error e) :
    decideRag o st = Except.error e := by
  unfold decideRag
  rw [if_pos h]
  simp [bind, Except.bind, hd]

theorem generateAnswer_eq_ok (o : String → Except String String) (st : AgentState)
    (g : String) (h : o (generatorUserPrompt st) = Except.ok g) :
    generateAnswer o st = Except.ok
      { st with answer := g, messages := st.messages ++ [("ai", g)] } := by
  simp [generateAnswer, bind, Except.bind, h, pure, Except.pure]

theorem generateAnswer_eq_error (o : String → Except String String) (st : AgentState)
    (e : String) (h : o (generatorUserPrompt st) = Except.error e) :
    generateAnswer o st = Except.error e := by
  simp [generateAnswer, bind, Except.bind, h]

theorem generateAnswer_ok (o : String → Except String String) (st st4 : AgentState)
    (h : generateAnswer o st = Except.ok st4) :
    ∃ g, o (generatorUserPrompt st) = Except.ok g ∧
      st4 = { st with answer := g, messages := st.messages ++ [("ai", g)] } := by
  cases hg : o (generatorUserPrompt st) with
  | error e => rw [generateAnswer_eq_error o st e hg] at h; cases h
  | ok g =>
    rw [generateAnswer_eq_ok o st g hg] at h
    injection h with h2
    exact ⟨g, rfl, h2.symm⟩

theorem validateAnswer_ok_pres (s : Settings) (resp : Except String String)
    (st st5 : AgentState) (h : validateAnswer s resp st = Except.ok st5) :
    st5.needs_rag = st.needs_rag ∧ st5.rag_results = st.rag_results ∧
    st5.user_query = st.user_query ∧ st5.intent = st.intent ∧
    st5.answer = st.answer := by
  cases hvv : resp with
  | error e => rw [hvv] at h; simp [validateAnswer, bind, Except.bind] at h
  | ok v =>
    rw [hvv] at h
    cases hpc : parseConfidence v with
    | error m => rw [validateAnswer_error_of_parse s v st m hpc] at h; cases h
    | ok conf =>
      obtain ⟨cq, hform⟩ := validateAnswer_ok_of_parse s v st conf hpc
      rw [hform] at h
      injection h with h5
      rw [← h5]
      exact ⟨rfl, rfl, rfl, rfl, rfl⟩

/-! ## `runTail` equations and shape -/

theorem runTail_eq_gen_error (s : Settings) (o : Oracle) (st : AgentState)
    (tr : List String) (e : String) (hga : generateAnswer o.generate st = Except.error e) :
    runTail s o st tr = (Except.error e, tr ++ ["generate_answer"]) := by
  unfold runTail
  rw [hga]

theorem runTail_eq_val_error (s : Settings) (o : Oracle) (st : AgentState)
    (tr : List String) (st4 : AgentState) (e : String)
    (hga : generateAnswer o.generate st = Except.ok st4)
    (hva : validateAnswer s (o.validate (validationPrompt st4)) st4 = Except.error e) :
    runTail s o st tr = (Except.error e, tr ++ ["generate_answer", "validate_answer"]) := by
  unfold runTail
  rw [hga]
  dsimp only
  rw [hva]

theorem runTail_eq_clarify (s : Settings) (o : Oracle) (st : AgentState)
    (tr : List String) (st4 st5 : AgentState)
    (hga : generateAnswer o.generate st = Except.ok st4)
    (hva : validateAnswer s (o.validate (validationPrompt st4)) st4 = Except.ok st5)
    (hr : routeAfterValidation s st5 = "clarify") :
    runTail s o st tr = (Except.ok (askClarification st5),
      tr ++ ["generate_answer", "validate_answer", "ask_clarification"]) := by
  unfold runTail
  rw [hga]
  dsimp only
  rw [hva]
  dsimp only
  rw [if_pos hr]

theorem runTail_eq_complete (s : Settings) (o : Oracle) (st : AgentState)
    (tr : List String) (st4 st5 : AgentState)
    (hga : generateAnswer o.generate st = Except.ok st4)
    (hva : validateAnswer s (o.validate (validationPrompt st4)) st4 = Except.ok st5)
    (hr : ¬ routeAfterValidation s st5 = "clarify") :
    runTail s o st tr = (Except.ok st5, tr ++ ["generate_answer", "validate_answer"]) := by
  unfold runTail
  rw [hga]
  dsimp only
  rw [hva]
  dsimp only
  rw [if_neg hr]

theorem runTail_trace (s : Settings) (o : Oracle) (st : AgentState) (tr : List String) :
    ∃ suf, (runTail s o st tr).2 = tr ++ suf ∧
      suf ⊆ ["generate_answer", "validate_answer", "ask_clarification"] := by
  cases hga : generateAnswer o.generate st with
  | error e =>
    rw [runTail_eq_gen_error s o st tr e hga]
    exact ⟨["generate_answer"], rfl, by decide⟩
  | ok st4 =>
    cases hva : validateAnswer s (o.validate (validationPrompt st4)) st4 with
    | error e =>
      rw [runTail_eq_val_error s o st tr st4 e hga hva]
      exact ⟨["generate_answer", "validate_answer"], rfl, by decide⟩
    | ok st5 =>
      by_cases hr : routeAfterValidation s st5 = "clarify"
      · rw [runTail_eq_clarify s o st tr st4 st5 hga hva hr]
        exact ⟨["generate_answer", "validate_answer", "ask_clarification"], rfl, by decide⟩
      · rw [runTail_eq_complete s o st tr st4 st5 hga hva hr]
        exact ⟨["generate_answer", "validate_answer"], rfl, by decide⟩

theorem askClarification_fields (st : AgentState) :
    (askClarification st).needs_rag = st.needs_rag ∧
    (askClarification st).rag_results = st.rag_results ∧
    (askClarification st).user_query = st.user_query ∧
    (askClarification st).intent = st.intent ∧
    (askClarification st).confidence = st.confidence ∧
    (askClarification st).needs_clarification = st.needs_clarification ∧
    (askClarification st).clarification_question = st.clarification_question := by
  simp [askClarification]

theorem runTail_ok_fields (s : Settings) (o : Oracle) (st : AgentState) (tr : List String)
    (fs : AgentState) (h : (runTail s o st tr).1 = Except.ok fs) :
    fs.needs_rag = st.needs_rag ∧ fs.rag_results = st.rag_results ∧
    fs.user_query = st.user_query ∧ fs.intent = st.intent := by
  cases hga : generateAnswer o.generate st with
  | error e => rw [runTail_eq_gen_error s o st tr e hga] at h; cases h
  | ok st4 =>
    obtain ⟨g, hg, hst4⟩ := generateAnswer_ok o.generate st st4 hga
    cases hva : validateAnswer s (o.validate (validationPrompt st4)) st4 with
    | error e => rw [runTail_eq_val_error s o st tr st4 e hga hva] at h; cases h
    | ok st5 =>
      obtain ⟨p1, p2, p3, p4, _⟩ :=
        validateAnswer_ok_pres s (o.validate (validationPrompt st4)) st4 st5 hva
      have hfields : st5.needs_rag = st.needs_rag ∧ st5.rag_results = st.rag_results ∧
          st5.user_query = st.user_query ∧ st5.intent = st.intent := by
        subst hst4
        exact ⟨p1, p2, p3, p4⟩
      by_cases hr : routeAfterValidation s st5 = "clarify"
      · rw [runTail_eq_clarify s o st tr st4 st5 hga hva hr] at h
        injection h with h6
        obtain ⟨a1, a2, a3, a4, _, _, _⟩ := askClarification_fields st5
        rw [← h6, a1, a2, a3, a4]
        exact hfields
      · rw [runTail_eq_complete s o st tr st4 st5 hga hva hr] at h
        injection h with h6
        rw [← h6]
        exact hfields

/-! ## `runGraphT` and `processMessage` equations -/

theorem runGraphT_eq_classify_error (s : Settings) (o : Oracle) (q e : String)
    (hc : o.classify q = Except.error e) :
    runGraphT s o q = (Except.error e, ["classify_intent"]) := by
  unfold runGraphT
  rw [classifyIntent_eq_error o.classify (initialState q) e hc]

theorem runGraphT_eq_decide_error (s : Settings) (o : Oracle) (q e : String)
    (st1 : AgentState) (h1 : classifyIntent o.classify (initialState q) = Except.ok st1)
    (h2 : decideRag o.ragDecide st1 = Except.error e) :
    runGraphT s o q = (Except.error e, ["classify_intent", "decide_rag"]) := by
  unfold runGraphT
  rw [h1]
  dsimp only
  rw [h2]

theorem runGraphT_eq_run (s : Settings) (o : Oracle) (q : String) (st1 st2 : AgentState)
    (h1 : classifyIntent o.classify (initialState q) = Except.ok st1)
    (h2 : decideRag o.ragDecide st1 = Except.ok st2) :
    runGraphT s o q =
      if st2.needs_rag = true then
        runTail s o (retrieveKnowledge s o.storeRaw st2)
          ["classify_intent", "decide_rag", "retrieve_knowledge"]
      else runTail s o st2 ["classify_intent", "decide_rag"] := by
  unfold runGraphT
  rw [h1]
  dsimp only
  rw [h2]
  dsimp only
  have hiff : (routeAfterRagDecision st2 = "retrieve") ↔ (st2.needs_rag = true) := by
    unfold routeAfterRagDecision
    cases hb : st2.needs_rag <;> simp
  by_cases hb : st2.needs_rag = true
  · rw [if_pos (hiff.mpr hb), if_pos hb]
  · rw [if_neg (fun hcon => hb (hiff.mp hcon)), if_neg hb]

theorem processMessage_eq_fallback (s : Settings) (o : Oracle) (q e : String)
    (h : (runGraphT s o q).1 = Except.error e) :
    processMessage s o q =
      { content := apologyText, confidence := 0, sources := [],
        needs_clarification := false, clarification_question := none,
        metadata := { intent := none, used_rag := none, error := some e } } := by
  unfold processMessage
  simp [h, bind, Except.bind]

theorem processMessage_eq_ok (s : Settings) (o : Oracle) (q : String) (fs : AgentState)
    (h : (runGraphT s o q).1 = Except.ok fs)
    (hc : ¬(fs.confidence < 0 ∨ 1 < fs.confidence)) :
    processMessage s o q =
      { content := fs.answer, confidence := fs.confidence,
        sources := extractSources fs.rag_results,
        needs_clarification := fs.needs_clarification,
        clarification_question := some fs.clarification_question,
        metadata := { intent := some fs.intent, used_rag := some fs.needs_rag,
                      error := none } } := by
  unfold processMessage mkAgentResponse
  simp [h, bind, Except.bind, hc, pure, Except.pure]

theorem processMessage_eq_invalid_conf (s : Settings) (o : Oracle) (q : String)
    (fs : AgentState) (h : (runGraphT s o q).1 = Except.ok fs)
    (hc : fs.confidence < 0 ∨ 1 < fs.confidence) :
    processMessage s o q =
      { content := apologyText, confidence := 0, sources := [],
        needs_clarification := false, clarification_question := none,
        metadata := { intent := none, used_rag := none,
                      error := some "1 validation error for AgentResponse: confidence" } } := by
  unfold processMessage mkAgentResponse
  simp [h, bind, Except.bind, hc]

theorem runTail_ok_conf (s : Settings) (o : Oracle) (st : AgentState) (tr : List String)
    (g v : String) (conf : ℚ)
    (hg : ∀ p, o.generate p = Except.ok g)
    (hv : ∀ p, o.validate p = Except.ok v)
    (hpc : parseConfidence v = Except.ok conf) :
    ∃ fs, (runTail s o st tr).1 = Except.ok fs ∧ fs.confidence = conf ∧
      fs.needs_clarification =
        (pyIn "CLARIFICATION_NEEDED: yes" v && decide (conf < s.confidence_threshold)) ∧
      fs.needs_rag = st.needs_rag ∧ fs.rag_results = st.rag_results ∧
      (fs.needs_clarification = false → fs.answer = g ∧
        (runTail s o st tr).2 = tr ++ ["generate_answer", "validate_answer"]) ∧
      (fs.needs_clarification = true →
        (runTail s o st tr).2 =
          tr ++ ["generate_answer", "validate_answer", "ask_clarification"] ∧
        fs.answer = g ++ "\n\n" ++
          (if fs.clarification_question ≠ "" then fs.clarification_question
           else "Could you provide more details about your question?")) := by
  have hga := generateAnswer_eq_ok o.generate st g (hg _)
  set st4 : AgentState :=
    { st with answer := g, messages := st.messages ++ [("ai", g)] } with hst4
  obtain ⟨cq, hva⟩ := validateAnswer_ok_of_parse s v st4 conf hpc
  rw [← hv (validationPrompt st4)] at hva
  set B := pyIn "CLARIFICATION_NEEDED: yes" v && decide (conf < s.confidence_threshold)
    with hB
  set st5 : AgentState :=
    { st4 with confidence := conf, needs_clarification := B,
               clarification_question := cq } with hst5
  have hroute : routeAfterValidation s st5 = (if B = true then "clarify" else "complete") := by
    unfold routeAfterValidation
    by_cases hb : B = true
    · have hlt : st5.confidence < s.confidence_threshold := by
        have : decide (conf < s.confidence_threshold) = true := by
          rcases Bool.and_eq_true_iff.mp (hB ▸ hb) with ⟨_, h2⟩
          exact h2
        simpa [hst5] using of_decide_eq_true this
      rw [if_pos ⟨by simp [hst5, hb], hlt⟩, if_pos hb]
    · rw [if_neg (fun hcon => hb (by simpa [hst5] using hcon.1)), if_neg hb]
  by_cases hb : B = true
  · have hr : routeAfterValidation s st5 = "clarify" := by rw [hroute, if_pos hb]
    have heq := runTail_eq_clarify s o st tr st4 st5 hga hva hr
    refine ⟨askClarification st5, by rw [heq], ?_, ?_, ?_, ?_, ?_, ?_⟩
    · simp [askClarification, hst5]
    · simp [askClarification, hst5, hb, hB]
    · simp [askClarification, hst5, hst4]
    · simp [askClarification, hst5, hst4]
    · intro hfalse
      rw [show (askClarification st5).needs_clarification = B by simp [askClarification, hst5]]
        at hfalse
      exact absurd hfalse (by simp [hb])
    · intro _
      constructor
      · rw [heq]
      · show (askClarification st5).answer = _
        unfold askClarification
        have h1 : st5.answer = g := by simp [hst5, hst4]
        have h2 : st5.clarification_question = cq := by simp [hst5]
        have h3 : (askClarification st5).clarification_question = cq := by
          simp [askClarification, hst5]
        simp only [h1, h2, h3]
  · have hr : routeAfterValidation s st5 = "complete" := by rw [hroute, if_neg hb]
    have heq := runTail_eq_complete s o st tr st4 st5 hga hva (by rw [hr]; decide)
    refine ⟨st5, by rw [heq], by simp [hst5], by simp [hst5], by simp [hst5, hst4],
      by simp [hst5, hst4], ?_, ?_⟩
    · intro _
      exact ⟨by simp [hst5, hst4], by rw [heq]⟩
    · intro htrue
      rw [show st5.needs_clarification = B by simp [hst5]] at htrue
      exact absurd htrue hb

theorem runGraphT_fst_of_tail (s : Settings) (o : Oracle) (q ic dr : String)
    (hc : o.classify q = Except.ok ic) (hd : ∀ p, o.ragDecide p = Except.ok dr)
    (P : Except String AgentState × List String → Prop)
    (htail : ∀ st tr, P (runTail s o st tr)) :
    P (runGraphT s o q) := by
  obtain ⟨st1, h1⟩ : ∃ st1, classifyIntent o.classify (initialState q) = Except.ok st1 :=
    ⟨_, classifyIntent_eq_ok o.classify (initialState q) ic hc⟩
  obtain ⟨st2, h2⟩ : ∃ st2, decideRag o.ragDecide st1 = Except.ok st2 := by
    by_cases hint : st1.intent = "greeting" ∨ st1.intent = "other"
    · exact ⟨_, decideRag_eq_skip o.ragDecide st1 hint⟩
    · exact ⟨_, decideRag_eq_ask o.ragDecide st1 dr (not_or.mp hint) (hd _)⟩
  rw [runGraphT_eq_run s o q st1 st2 h1 h2]
  by_cases hb : st2.needs_rag = true
  · rw [if_pos hb]
    exact htail _ _
  · rw [if_neg hb]
    exact htail _ _

/-! # Claims -/

/-- C1: Double-gating law. For every validator response text accepted by
`validate_answer`, the stored `needs_clarification` is true iff the exact
substring `CLARIFICATION_NEEDED: yes` occurs in the text AND the parsed
confidence is strictly below the configured threshold (default 0.7); in
particular, with the textual flag present but confidence at or above the
threshold, `needs_clarification` is false. On the success path,
`process_message` returns exactly this stored value in the Final
Response. -/
theorem C1_double_gating (s : Settings) (v : String) (st st' : AgentState)
    (h : validateAnswer s (Except.ok v) st = Except.ok st') :
    st'.needs_clarification =
      (pyIn "CLARIFICATION_NEEDED: yes" v
        && decide (st'.confidence < s.confidence_threshold)) ∧
    (pyIn "CLARIFICATION_NEEDED: yes" v = true →
      s.confidence_threshold ≤ st'.confidence → st'.needs_clarification = false) ∧
    defaultSettings.confidence_threshold = 7/10 ∧
    (∀ (o : Oracle) (q : String) (fs : AgentState) (tr : List String),
      runGraphT s o q = (Except.ok fs, tr) →
      ¬(fs.confidence < 0 ∨ 1 < fs.confidence) →
      (processMessage s o q).needs_clarification = fs.needs_clarification) := by
  obtain ⟨hpc, hnc, _, _, _⟩ := validateAnswer_ok_shape s v st st' h
  refine ⟨hnc, ?_, defaultSettings_threshold, ?_⟩
  · intro hflag hle
    rw [hnc, hflag]
    simp [not_lt.mpr hle]
  · intro o q fs tr hrun hcr
    have h1 : (runGraphT s o q).1 = Except.ok fs := by rw [hrun]
    rw [processMessage_eq_ok s o q fs h1 hcr]

/-- Witness for C1 at the concrete validator reply
`CLARIFICATION_NEEDED: yes\nCONFIDENCE: 0.9` (flag present, confidence at
or above the default threshold): the stored flag is false. -/
theorem C1_double_gating_witness :
    validateAnswer defaultSettings
        (Except.ok "CLARIFICATION_NEEDED: yes\nCONFIDENCE: 0.9") (initialState "q") =
      Except.ok { initialState "q" with confidence := mkRat 9 10 } ∧
    ({ initialState "q" with confidence := mkRat 9 10 } : AgentState).needs_clarification
      = false := by
  have happ := C1_double_gating defaultSettings
    "CLARIFICATION_NEEDED: yes\nCONFIDENCE: 0.9" (initialState "q")
    { initialState "q" with confidence := mkRat 9 10 } (by decide)
  exact ⟨by decide, happ.2.1 (by decide) (by decide)⟩

/-- C2: Validator parse failure is fail-fast. If the validator reply has a
`CONFIDENCE:` line whose `split(':')[1]` segment is not a valid decimal,
`validate_answer` raises (never defaulting the confidence), and the turn
surfaces as the turn-level fallback response carrying that error. -/
theorem C2_parse_failure_fail_fast (s : Settings) (o : Oracle) (q v ic dr g : String)
    (l0 : List Char) (rest : List (List Char)) (seg : List Char)
    (hv : ∀ p, o.validate p = Except.ok v)
    (hl : (splitLines v.data).filter (fun l => containsL "CONFIDENCE:".data l) = l0 :: rest)
    (hseg : confidenceSegment l0 = some seg)
    (hbad : pythonFloat seg = none)
    (hc : o.classify q = Except.ok ic)
    (hd : ∀ p, o.ragDecide p = Except.ok dr)
    (hg : ∀ p, o.generate p = Except.ok g) :
    (∀ st, validateAnswer s (Except.ok v) st =
      Except.error
        ("could not convert string to float: \x27" ++ String.mk (stripL seg) ++ "\x27")) ∧
    processMessage s o q =
      { content := apologyText, confidence := 0, sources := [],
        needs_clarification := false, clarification_question := none,
        metadata := { intent := none, used_rag := none,
                      error := some ("could not convert string to float: \x27"
                        ++ String.mk (stripL seg) ++ "\x27") } } := by
  set msg := "could not convert string to float: \x27" ++ String.mk (stripL seg) ++ "\x27"
    with hmsgdef
  have hpc : parseConfidence v = Except.error msg := by
    unfold parseConfidence
    rw [hl]
    dsimp only
    rw [hseg]
    dsimp only
    rw [hbad]
  have hva : ∀ st, validateAnswer s (Except.ok v) st = Except.error msg :=
    fun st => validateAnswer_error_of_parse s v st msg hpc
  have hrun : (runGraphT s o q).1 = Except.error msg := by
    refine runGraphT_fst_of_tail s o q ic dr hc hd
      (fun r => r.1 = Except.error msg) (fun st tr => ?_)
    have hga := generateAnswer_eq_ok o.generate st g (hg _)
    set st4 : AgentState :=
      { st with answer := g, messages := st.messages ++ [("ai", g)] } with hst4
    have hvaerr : validateAnswer s (o.validate (validationPrompt st4)) st4 =
        Except.error msg := by
      rw [hv]
      exact hva _
    rw [runTail_eq_val_error s o st tr st4 msg hga hvaerr]
  exact ⟨hva, processMessage_eq_fallback s o q msg hrun⟩

/-- Witness for C2 at the validator reply `CONFIDENCE: not a number`. -/
theorem C2_parse_failure_fail_fast_witness :
    processMessage defaultSettings
      (constOracle "question" "yes" "Answer." "CONFIDENCE: not a number" (Except.ok []))
      "q" =
    { content := apologyText, confidence := 0, sources := [],
      needs_clarification := false, clarification_question := none,
      metadata := { intent := none, used_rag := none,
                    error := some "could not convert string to float: \x27not a number\x27" } } := by
  have happ := C2_parse_failure_fail_fast defaultSettings
    (constOracle "question" "yes" "Answer." "CONFIDENCE: not a number" (Except.ok []))
    "q" "CONFIDENCE: not a number" "question" "yes" "Answer."
    "CONFIDENCE: not a number".data [] " not a number".data
    (fun _ => rfl) (by decide) (by decide) (by decide) rfl (fun _ => rfl) (fun _ => rfl)
  exact happ.2

/-- C6: Turn-level fallback. Any uncaught failure in the graph makes
`process_message` return the single canned apology response with
confidence exactly 0.0, an empty sources list, and the failure detail only
in the metadata error field; in particular a transport error raised by the
LLM call inside the classifier, whose (non-empty) message lands in
metadata and never in the answer text. -/
theorem C6_turn_level_fallback (s : Settings) (o : Oracle) (q : String) :
    (∀ e, (runGraphT s o q).1 = Except.error e →
      processMessage s o q =
        { content := apologyText, confidence := 0, sources := [],
          needs_clarification := false, clarification_question := none,
          metadata := { intent := none, used_rag := none, error := some e } }) ∧
    (∀ e, o.classify q = Except.error e → e ≠ "" →
      (runGraphT s o q).1 = Except.error e ∧
      processMessage s o q =
        { content := apologyText, confidence := 0, sources := [],
          needs_clarification := false, clarification_question := none,
          metadata := { intent := none, used_rag := none, error := some e } } ∧
      (processMessage s o q).metadata.error ≠ some "" ∧
      (processMessage s o q).content = apologyText) := by
  constructor
  · intro e h
    exact processMessage_eq_fallback s o q e h
  · intro e hc hne
    have h1 : (runGraphT s o q).1 = Except.error e := by
      rw [runGraphT_eq_classify_error s o q e hc]
    refine ⟨h1, processMessage_eq_fallback s o q e h1, ?_, ?_⟩
    · rw [processMessage_eq_fallback s o q e h1]
      simpa using hne
    · rw [processMessage_eq_fallback s o q e h1]

/-- Witness for C6: a transport error in the classifier on a concrete turn. -/
theorem C6_turn_level_fallback_witness :
    processMessage defaultSettings
      { classify := fun _ => Except.error "Connection error.",
        ragDecide := fun _ => Except.ok "yes",
        generate := fun _ => Except.ok "Hello!",
        validate := fun _ => Except.ok "CONFIDENCE: 0.9",
        storeRaw := Except.ok [] } "Hi" =
    { content := apologyText, confidence := 0, sources := [],
      needs_clarification := false, clarification_question := none,
      metadata := { intent := none, used_rag := none,
                    error := some "Connection error." } } := by
  have happ := (C6_turn_level_fallback defaultSettings
    { classify := fun _ => Except.error "Connection error.",
      ragDecide := fun _ => Except.ok "yes",
      generate := fun _ => Except.ok "Hello!",
      validate := fun _ => Except.ok "CONFIDENCE: 0.9",
      storeRaw := Except.ok [] } "Hi").2 "Connection error." rfl (by decide)
  exact happ.2.1

/-- C10: Out-of-range confidence. If the validator reply parses to a float
outside [0,1], `validate_answer` itself succeeds and the graph runs to
completion carrying that confidence, but assembling the Final Response
rejects it (pydantic `ge=0, le=1`), so `process_message` returns the
canned fallback with confidence 0.0, no sources, and the validation error
in metadata. -/
theorem C10_out_of_range_confidence (s : Settings) (o : Oracle)
    (q ic dr g v : String) (c : ℚ)
    (hc : o.classify q = Except.ok ic)
    (hd : ∀ p, o.ragDecide p = Except.ok dr)
    (hg : ∀ p, o.generate p = Except.ok g)
    (hv : ∀ p, o.validate p = Except.ok v)
    (hpc : parseConfidence v = Except.ok c)
    (hout : c < 0 ∨ 1 < c) :
    (∃ fs tr, runGraphT s o q = (Except.ok fs, tr) ∧ fs.confidence = c) ∧
    processMessage s o q =
      { content := apologyText, confidence := 0, sources := [],
        needs_clarification := false, clarification_question := none,
        metadata := { intent := none, used_rag := none,
                      error := some "1 validation error for AgentResponse: confidence" } } := by
  have hmain : ∃ fs, (runGraphT s o q).1 = Except.ok fs ∧ fs.confidence = c := by
    refine runGraphT_fst_of_tail s o q ic dr hc hd
      (fun r => ∃ fs, r.1 = Except.ok fs ∧ fs.confidence = c) (fun st tr => ?_)
    obtain ⟨fs, h1, h2, _⟩ := runTail_ok_conf s o st tr g v c hg hv hpc
    exact ⟨fs, h1, h2⟩
  obtain ⟨fs, h1, h2⟩ := hmain
  constructor
  · refine ⟨fs, (runGraphT s o q).2, ?_, h2⟩
    have hpair : runGraphT s o q = ((runGraphT s o q).1, (runGraphT s o q).2) := rfl
    rw [hpair, h1]
  · refine processMessage_eq_invalid_conf s o q fs h1 ?_
    rw [h2]
    exact hout

/-- Witness for C10 at the validator reply `CONFIDENCE: 1.5`. -/
theorem C10_out_of_range_confidence_witness :
    processMessage defaultSettings
      (constOracle "question" "yes" "Answer." "CONFIDENCE: 1.5" (Except.ok [])) "q" =
    { content := apologyText, confidence := 0, sources := [],
      needs_clarification := false, clarification_question := none,
      metadata := { intent := none, used_rag := none,
                    error := some "1 validation error for AgentResponse: confidence" } } := by
  have happ := C10_out_of_range_confidence defaultSettings
    (constOracle "question" "yes" "Answer." "CONFIDENCE: 1.5" (Except.ok []))
    "q" "question" "yes" "Answer." "CONFIDENCE: 1.5" (mkRat 3 2)
    rfl (fun _ => rfl) (fun _ => rfl) (fun _ => rfl) (by decide) (by decide)
  exact happ.2

/-- C4: Retrieval gate law. When the classified intent is `greeting` or
`other`, `needs_rag` is false and the retriever node never executes; for
every other intent, `needs_rag` (and hence whether the retriever executes)
is true iff the secondary yes/no LLM reply, stripped and lower-cased,
equals exactly `"yes"`. -/
theorem C4_retrieval_gate (s : Settings) (o : Oracle) (q c : String)
    (hc : o.classify q = Except.ok c) :
    (pyStripLower c = "greeting" ∨ pyStripLower c = "other" →
      "retrieve_knowledge" ∉ (runGraphT s o q).2 ∧
      ∀ fs, (runGraphT s o q).1 = Except.ok fs → fs.needs_rag = false) ∧
    (pyStripLower c ≠ "greeting" → pyStripLower c ≠ "other" →
      ∀ d, (∀ p, o.ragDecide p = Except.ok d) →
        ("retrieve_knowledge" ∈ (runGraphT s o q).2 ↔ pyStripLower d = "yes") ∧
        ∀ fs, (runGraphT s o q).1 = Except.ok fs →
          (fs.needs_rag = true ↔ pyStripLower d = "yes")) := by
  obtain ⟨st1, h1, hint⟩ : ∃ st1, classifyIntent o.classify (initialState q) =
      Except.ok st1 ∧ st1.intent = pyStripLower c :=
    ⟨_, classifyIntent_eq_ok o.classify (initialState q) c hc, rfl⟩
  constructor
  · intro hgo
    obtain ⟨st2, h2, hb0⟩ : ∃ st2, decideRag o.ragDecide st1 = Except.ok st2 ∧
        st2.needs_rag = false :=
      ⟨_, decideRag_eq_skip o.ragDecide st1 (by rw [hint]; exact hgo), rfl⟩
    have hb : ¬ st2.needs_rag = true := by rw [hb0]; decide
    rw [runGraphT_eq_run s o q st1 st2 h1 h2, if_neg hb]
    constructor
    · obtain ⟨suf, htr, hsub⟩ := runTail_trace s o st2 ["classify_intent", "decide_rag"]
      rw [htr]
      intro hmem
      rcases List.mem_append.mp hmem with hmem | hmem
      · simp at hmem
      · have := hsub hmem
        simp at this
    · intro fs hfs
      obtain ⟨hnr, _, _, _⟩ :=
        runTail_ok_fields s o st2 ["classify_intent", "decide_rag"] fs hfs
      rw [hnr, hb0]
  · intro hg1 hg2 d hd
    obtain ⟨st2, h2, hb0⟩ : ∃ st2, decideRag o.ragDecide st1 = Except.ok st2 ∧
        st2.needs_rag = decide (pyStripLower d = "yes") :=
      ⟨_, decideRag_eq_ask o.ragDecide st1 d
        ⟨by rw [hint]; exact hg1, by rw [hint]; exact hg2⟩ (hd _), rfl⟩
    rw [runGraphT_eq_run s o q st1 st2 h1 h2]
    by_cases hyes : pyStripLower d = "yes"
    · have hb : st2.needs_rag = true := by rw [hb0]; simp [hyes]
      rw [if_pos hb]
      constructor
      · constructor
        · intro _
          exact hyes
        · intro _
          obtain ⟨suf, htr, _⟩ := runTail_trace s o (retrieveKnowledge s o.storeRaw st2)
            ["classify_intent", "decide_rag", "retrieve_knowledge"]
          rw [htr]
          exact List.mem_append.mpr (Or.inl (by simp))
      · intro fs hfs
        obtain ⟨hnr, _, _, _⟩ := runTail_ok_fields s o (retrieveKnowledge s o.storeRaw st2)
          ["classify_intent", "decide_rag", "retrieve_knowledge"] fs hfs
        have hretr : (retrieveKnowledge s o.storeRaw st2).needs_rag = st2.needs_rag := rfl
        rw [hnr, hretr, hb]
        simp [hyes]
    · have hb : ¬ st2.needs_rag = true := by rw [hb0]; simp [hyes]
      rw [if_neg hb]
      constructor
      · constructor
        · intro hmem
          obtain ⟨suf, htr, hsub⟩ := runTail_trace s o st2 ["classify_intent", "decide_rag"]
          rw [htr] at hmem
          rcases List.mem_append.mp hmem with hmem | hmem
          · simp at hmem
          · have := hsub hmem
            simp at this
        · intro hcon
          exact absurd hcon hyes
      · intro fs hfs
        obtain ⟨hnr, _, _, _⟩ :=
          runTail_ok_fields s o st2 ["classify_intent", "decide_rag"] fs hfs
        rw [hnr, hb0]
        simp [hyes]

/-- Witness for C4 on the concrete turn with classifier reply
` Greeting` (stripped/lowered to `greeting`): the retrieve node is absent
from the executed trace and the final state has `needs_rag = false`. -/
theorem C4_retrieval_gate_witness :
    "retrieve_knowledge" ∉
      (runGraphT defaultSettings
        (constOracle " Greeting" "yes" "Hello!" "CONFIDENCE: 0.9" (Except.ok [])) "Hi").2 ∧
    ({ messages := [("human", "Hi"), ("ai", "Hello!")], user_query := "Hi",
       intent := "greeting", needs_rag := false, rag_results := "",
       confidence := mkRat 9 10, answer := "Hello!", needs_clarification := false,
       clarification_question := "", iteration_count := 0 } : AgentState).needs_rag
      = false := by
  have happ := (C4_retrieval_gate defaultSettings
    (constOracle " Greeting" "yes" "Hello!" "CONFIDENCE: 0.9" (Except.ok [])) "Hi"
    " Greeting" rfl).1 (Or.inl (by decide))
  exact ⟨happ.1, happ.2 _ (by decide)⟩

theorem runTail_clarified (s : Settings) (o : Oracle) (st : AgentState) (tr : List String)
    (fs : AgentState) (tr2 : List String)
    (h : runTail s o st tr = (Except.ok fs, tr2))
    (hnc : fs.needs_clarification = true) :
    "ask_clarification" ∈ tr2 ∧
    ∃ prev, fs.answer = prev ++ "\n\n" ++
      (if fs.clarification_question ≠ "" then fs.clarification_question
       else "Could you provide more details about your question?") := by
  cases hga : generateAnswer o.generate st with
  | error e =>
    rw [runTail_eq_gen_error s o st tr e hga] at h
    exact absurd (congrArg Prod.fst h) (by simp)
  | ok st4 =>
    cases hva : validateAnswer s (o.validate (validationPrompt st4)) st4 with
    | error e =>
      rw [runTail_eq_val_error s o st tr st4 e hga hva] at h
      exact absurd (congrArg Prod.fst h) (by simp)
    | ok st5 =>
      by_cases hr : routeAfterValidation s st5 = "clarify"
      · rw [runTail_eq_clarify s o st tr st4 st5 hga hva hr] at h
        have hfs : fs = askClarification st5 := by
          have h2 := congrArg Prod.fst h
          simp only [Prod.fst] at h2
          injection h2.symm with h3
        have htr2 : tr2 = tr ++ ["generate_answer", "validate_answer", "ask_clarification"] := by
          have h2 := congrArg Prod.snd h
          simpa using h2.symm
        subst hfs
        subst htr2
        refine ⟨List.mem_append.mpr (Or.inr (by simp)), st5.answer, ?_⟩
        show (askClarification st5).answer = _
        have hq : (askClarification st5).clarification_question =
            st5.clarification_question := by
          simp [askClarification]
        rw [hq]
        unfold askClarification
        by_cases hcq : st5.clarification_question ≠ ""
        · simp [hcq]
        · simp only [ne_eq, not_not] at hcq
          simp [hcq]
      · rw [runTail_eq_complete s o st tr st4 st5 hga hva hr] at h
        have hfs : fs = st5 := by
          have h2 := congrArg Prod.fst h
          simp only [Prod.fst] at h2
          injection h2.symm with h3
        subst hfs
        exfalso
        cases hvv : o.validate (validationPrompt st4) with
        | error e => rw [hvv] at hva; simp [validateAnswer, bind, Except.bind] at hva
        | ok v =>
          rw [hvv] at hva
          obtain ⟨_, hshape, _, _, _⟩ := validateAnswer_ok_shape s v st4 fs hva
          apply hr
          unfold routeAfterValidation
          rw [if_pos]
          constructor
          · exact hnc
          · have hdec : decide (fs.confidence < s.confidence_threshold) = true := by
              rw [hshape] at hnc
              exact (Bool.and_eq_true_iff.mp hnc).2
            exact of_decide_eq_true hdec

/-- C8: Clarification Composer behaviour. On every completed turn where
the stored `needs_clarification` is true, the composer node executed and
the final answer is the previous answer, two newlines, then the stored
question (or the generic fallback when it is empty). With the canned
validator reply `COMPLETE: yes\nCLARIFICATION_NEEDED: no\nCONFIDENCE: 0.92`
the composer never executes and the answer is the generator's output
unmodified, with confidence 0.92 and `needs_clarification` false. -/
theorem C8_clarification_composer (s : Settings) (o : Oracle) (q : String) :
    (∀ fs tr, runGraphT s o q = (Except.ok fs, tr) → fs.needs_clarification = true →
      "ask_clarification" ∈ tr ∧
      ∃ prev, fs.answer = prev ++ "\n\n" ++
        (if fs.clarification_question ≠ "" then fs.clarification_question
         else "Could you provide more details about your question?")) ∧
    (∀ ic dr g fs tr,
      o.classify q = Except.ok ic →
      (∀ p, o.ragDecide p = Except.ok dr) →
      (∀ p, o.generate p = Except.ok g) →
      (∀ p, o.validate p =
        Except.ok "COMPLETE: yes\nCLARIFICATION_NEEDED: no\nCONFIDENCE: 0.92") →
      runGraphT s o q = (Except.ok fs, tr) →
      fs.confidence = mkRat 92 100 ∧ fs.needs_clarification = false ∧
      fs.answer = g ∧ "ask_clarification" ∉ tr) := by
  constructor
  · intro fs tr hrun hnc
    cases hcl : o.classify q with
    | error e =>
      rw [runGraphT_eq_classify_error s o q e hcl] at hrun
      exact absurd (congrArg Prod.fst hrun) (by simp)
    | ok c =>
      obtain ⟨st1, h1⟩ : ∃ st1, classifyIntent o.classify (initialState q) =
          Except.ok st1 := ⟨_, classifyIntent_eq_ok o.classify (initialState q) c hcl⟩
      cases hdr : decideRag o.ragDecide st1 with
      | error e =>
        rw [runGraphT_eq_decide_error s o q e st1 h1 hdr] at hrun
        exact absurd (congrArg Prod.fst hrun) (by simp)
      | ok st2 =>
        rw [runGraphT_eq_run s o q st1 st2 h1 hdr] at hrun
        by_cases hb : st2.needs_rag = true
        · rw [if_pos hb] at hrun
          exact runTail_clarified s o _ _ fs tr hrun hnc
        · rw [if_neg hb] at hrun
          exact runTail_clarified s o _ _ fs tr hrun hnc
  · intro ic dr g fs tr hic hdr hgen hval hrun
    have hpc92 : parseConfidence
        "COMPLETE: yes\nCLARIFICATION_NEEDED: no\nCONFIDENCE: 0.92" =
        Except.ok (mkRat 92 100) := by decide
    have hflag : pyIn "CLARIFICATION_NEEDED: yes"
        "COMPLETE: yes\nCLARIFICATION_NEEDED: no\nCONFIDENCE: 0.92" = false := by decide
    obtain ⟨st1, h1⟩ : ∃ st1, classifyIntent o.classify (initialState q) =
        Except.ok st1 := ⟨_, classifyIntent_eq_ok o.classify (initialState q) ic hic⟩
    obtain ⟨st2, h2⟩ : ∃ st2, decideRag o.ragDecide st1 = Except.ok st2 := by
      by_cases hint : st1.intent = "greeting" ∨ st1.intent = "other"
      · exact ⟨_, decideRag_eq_skip o.ragDecide st1 hint⟩
      · exact ⟨_, decideRag_eq_ask o.ragDecide st1 dr (not_or.mp hint) (hdr _)⟩
    rw [runGraphT_eq_run s o q st1 st2 h1 h2] at hrun
    have main : ∀ (st : AgentState) (tr0 : List String),
        runTail s o st tr0 = (Except.ok fs, tr) →
        fs.confidence = mkRat 92 100 ∧ fs.needs_clarification = false ∧
        fs.answer = g ∧ tr = tr0 ++ ["generate_answer", "validate_answer"] := by
      intro st tr0 hrt
      obtain ⟨fs', hfs1, hconf, hncl, _, _, hfalse, _⟩ :=
        runTail_ok_conf s o st tr0 g
          "COMPLETE: yes\nCLARIFICATION_NEEDED: no\nCONFIDENCE: 0.92"
          (mkRat 92 100) hgen hval hpc92
      rw [hrt] at hfs1
      have hfseq : fs' = fs := by
        injection hfs1.symm with h3
      subst hfseq
      have hnclf : fs'.needs_clarification = false := by
        rw [hncl, hflag]
        simp
      obtain ⟨hans, htr⟩ := hfalse hnclf
      rw [hrt] at htr
      exact ⟨hconf, hnclf, hans, htr⟩
    by_cases hb : st2.needs_rag = true
    · rw [if_pos hb] at hrun
      obtain ⟨e1, e2, e3, e4⟩ := main _ _ hrun
      refine ⟨e1, e2, e3, ?_⟩
      rw [e4]
      decide
    · rw [if_neg hb] at hrun
      obtain ⟨e1, e2, e3, e4⟩ := main _ _ hrun
      refine ⟨e1, e2, e3, ?_⟩
      rw [e4]
      decide

/-- Witness for C8: round-trip on a concrete turn with the canned
validator reply; the composer did not run and the answer is unmodified. -/
theorem C8_clarification_composer_witness :
    (processMessage defaultSettings
      (constOracle "question" "no" "The answer."
        "COMPLETE: yes\nCLARIFICATION_NEEDED: no\nCONFIDENCE: 0.92" (Except.ok []))
      "q").content = "The answer." ∧
    (processMessage defaultSettings
      (constOracle "question" "no" "The answer."
        "COMPLETE: yes\nCLARIFICATION_NEEDED: no\nCONFIDENCE: 0.92" (Except.ok []))
      "q").confidence = mkRat 92 100 := by
  have happ := (C8_clarification_composer defaultSettings
    (constOracle "question" "no" "The answer."
      "COMPLETE: yes\nCLARIFICATION_NEEDED: no\nCONFIDENCE: 0.92" (Except.ok []))
    "q").2 "question" "no" "The answer."
    { messages := [("human", "q"), ("ai", "The answer.")], user_query := "q",
      intent := "question", needs_rag := false, rag_results := "",
      confidence := mkRat 92 100, answer := "The answer.",
      needs_clarification := false, clarification_question := "",
      iteration_count := 0 }
    ["classify_intent", "decide_rag", "generate_answer", "validate_answer"]
    rfl (fun _ => rfl) (fun _ => rfl) (fun _ => rfl) (by decide)
  refine ⟨?_, ?_⟩ <;> decide

/-- Counterexample for C5 as stated: on a turn where the store raises, the
turn completes normally (no fallback) but the Generator's prompt — made
observable here by an echoing generate oracle, so the final `content` IS
the generator's user prompt — is the knowledge-base path carrying the
fixed no-results message, and differs from the general-knowledge prompt
the claim requires. -/
theorem C5_counterexample :
    (processMessage defaultSettings
      { classify := fun _ => Except.ok "question",
        ragDecide := fun _ => Except.ok "yes",
        generate := fun p => Except.ok p,
        validate := fun _ => Except.ok "CONFIDENCE: 0.9",
        storeRaw := Except.error "store down" } "q").content =
      "User Query: q\nIntent: question\n\n" ++ "\nKnowledge Base Results:\n"
        ++ formatNoResults
        ++ "\n\nBased on the above information, provide a helpful answer. If the knowledge base doesn\x27t contain enough information, be honest about it.\n" ∧
    (processMessage defaultSettings
      { classify := fun _ => Except.ok "question",
        ragDecide := fun _ => Except.ok "yes",
        generate := fun p => Except.ok p,
        validate := fun _ => Except.ok "CONFIDENCE: 0.9",
        storeRaw := Except.error "store down" } "q").content ≠
      "User Query: q\nIntent: question\n\n"
        ++ "\nProvide a direct, helpful response based on your general knowledge.\n" ∧
    (processMessage defaultSettings
      { classify := fun _ => Except.ok "question",
        ragDecide := fun _ => Except.ok "yes",
        generate := fun p => Except.ok p,
        validate := fun _ => Except.ok "CONFIDENCE: 0.9",
        storeRaw := Except.error "store down" } "q").metadata.error = none := by
  refine ⟨by decide, by decide, by decide⟩

/-- C5 (amended): a store failure during retrieval is absorbed inside
`similarity_search`: the result set is empty, `rag_results` becomes the
fixed no-results message, the Generator proceeds on the knowledge-base
prompt path carrying that message (not the general-knowledge path), and
the whole turn behaves exactly as if the store had returned zero rows —
in particular it cannot by itself trigger the turn-level fallback. -/
theorem C5_retrieval_failure_amended (s : Settings) (o : Oracle) (e : String)
    (st : AgentState) (hs : o.storeRaw = Except.error e) :
    similaritySearch s o.storeRaw = [] ∧
    (retrieveKnowledge s o.storeRaw st).rag_results = formatNoResults ∧
    (st.needs_rag = true →
      generatorUserPrompt (retrieveKnowledge s o.storeRaw st) =
        "User Query: " ++ st.user_query ++ "\nIntent: " ++ st.intent ++ "\n\n"
          ++ "\nKnowledge Base Results:\n" ++ formatNoResults
          ++ "\n\nBased on the above information, provide a helpful answer. If the knowledge base doesn\x27t contain enough information, be honest about it.\n") ∧
    (∀ q, runGraphT s { o with storeRaw := Except.error e } q =
      runGraphT s { o with storeRaw := Except.ok [] } q) := by
  simp only [hs]
  refine ⟨rfl, rfl, ?_, ?_⟩
  · intro hnr
    have hcond : (retrieveKnowledge s (Except.error e) st).needs_rag = true ∧
        (retrieveKnowledge s (Except.error e) st).rag_results ≠ "" :=
      ⟨hnr, (by decide : formatNoResults ≠ "")⟩
    unfold generatorUserPrompt
    rw [if_pos hcond]
    rfl
  · intro q
    rfl

/-- Witness for C5 (amended) at a concrete store failure. -/
theorem C5_retrieval_failure_amended_witness :
    similaritySearch defaultSettings (Except.error "store down") = [] ∧
    ragToolRun defaultSettings (Except.error "store down") "q" = formatNoResults := by
  have happ := C5_retrieval_failure_amended defaultSettings
    (constOracle "question" "yes" "Answer." "CONFIDENCE: 0.9" (Except.error "store down"))
    "store down" (initialState "q") rfl
  exact ⟨happ.1, happ.2.1⟩

/-! ## Split and strip facts used for C3 -/

theorem dropWhile_idem_of_clean (p : Char → Bool) (m : List Char)
    (hm : List.dropWhile p m = m) :
    List.dropWhile p (List.rdropWhile p m) = List.rdropWhile p m := by
  cases m with
  | nil => simp [List.rdropWhile]
  | cons c cs =>
    have hc : p c = false := by
      by_cases hpc : p c = true
      · rw [List.dropWhile_cons, if_pos hpc] at hm
        have hlen := congrArg List.length hm
        have hle := (List.dropWhile_sublist (p := p) (l := cs)).length_le
        simp at hlen
        omega
      · simpa using hpc
    cases hr : List.rdropWhile p (c :: cs) with
    | nil => simp
    | cons d ds =>
      obtain ⟨t, ht⟩ := List.rdropWhile_prefix (p := p) (l := c :: cs)
      rw [hr] at ht
      have hd : d = c := by
        have := (List.cons.injEq d (ds ++ t) c cs).mp ht
        exact this.1
      subst hd
      rw [List.dropWhile_cons, if_neg (by simp [hc])]

theorem stripL_idem (l : List Char) : stripL (stripL l) = stripL l := by
  show List.rdropWhile pyIsSpace (List.dropWhile pyIsSpace
    (List.rdropWhile pyIsSpace (List.dropWhile pyIsSpace l))) = _
  rw [dropWhile_idem_of_clean pyIsSpace (List.dropWhile pyIsSpace l)
    (List.dropWhile_idempotent ..), List.rdropWhile_idempotent]
  rfl

theorem pythonFloat_stripL (x : List Char) : pythonFloat (stripL x) = pythonFloat x := by
  unfold pythonFloat
  rw [stripL_idem]

theorem splitChar_cons (sep c : Char) (cs : List Char) :
    splitChar sep (c :: cs) =
      if c = sep then [] :: splitChar sep cs
      else
        match splitChar sep cs with
        | l :: ls => (c :: l) :: ls
        | [] => [[c]] := rfl

theorem splitFirst_cons (sep c : Char) (cs : List Char) :
    splitFirst sep (c :: cs) =
      if c = sep then ([], some cs)
      else ((c :: (splitFirst sep cs).1, (splitFirst sep cs).2) :
        List Char × Option (List Char)) := rfl

theorem splitFirst_none_eq (sep : Char) (l : List Char)
    (h : (splitFirst sep l).2 = none) : splitChar sep l = [l] := by
  induction l with
  | nil => rfl
  | cons c cs ih =>
    rw [splitFirst_cons] at h
    by_cases hc : c = sep
    · rw [if_pos hc] at h
      simp at h
    · rw [if_neg hc] at h
      rw [splitChar_cons, if_neg hc, ih (by simpa using h)]

theorem splitFirst_some_eq (sep : Char) (l r : List Char)
    (h : (splitFirst sep l).2 = some r) :
    splitChar sep l = (splitFirst sep l).1 :: splitChar sep r := by
  induction l with
  | nil => simp [splitFirst] at h
  | cons c cs ih =>
    rw [splitFirst_cons] at h ⊢
    by_cases hc : c = sep
    · rw [if_pos hc] at h ⊢
      have hr : cs = r := by simpa using h
      subst hr
      rw [splitChar_cons, if_pos hc]
    · rw [if_neg hc] at h ⊢
      rw [splitChar_cons, if_neg hc, ih (by simpa using h)]

theorem splitChar_head_takeWhile (sep : Char) (r : List Char) :
    ∃ tail, splitChar sep r = (r.takeWhile (fun c => c ≠ sep)) :: tail := by
  induction r with
  | nil => exact ⟨[], rfl⟩
  | cons c cs ih =>
    by_cases hc : c = sep
    · refine ⟨splitChar sep cs, ?_⟩
      rw [splitChar_cons, if_pos hc]
      simp [List.takeWhile_cons, hc]
    · obtain ⟨t, ht⟩ := ih
      refine ⟨t, ?_⟩
      rw [splitChar_cons, if_neg hc, ht]
      simp [List.takeWhile_cons, hc]

theorem parseConfidence_between (v : String) (c : ℚ)
    (h : parseConfidence v = Except.ok c) :
    specConfidenceBetweenColons v = some c := by
  unfold parseConfidence at h
  unfold specConfidenceBetweenColons
  cases hf : (splitLines v.data).filter (fun l => containsL "CONFIDENCE:".data l) with
  | nil =>
    rw [hf] at h
    have hv : mkRat 4 5 = c := by injection h
    exact congrArg some hv
  | cons l ls =>
    rw [hf] at h
    dsimp only at h ⊢
    cases hsp : (splitFirst ':' l).2 with
    | none =>
      unfold confidenceSegment at h
      rw [splitFirst_none_eq ':' l hsp] at h
      simp at h
    | some r =>
      obtain ⟨tail, htw⟩ := splitChar_head_takeWhile ':' r
      unfold confidenceSegment at h
      rw [splitFirst_some_eq ':' l r hsp, htw] at h
      dsimp only at h ⊢
      rw [pythonFloat_stripL]
      cases hpf : pythonFloat (r.takeWhile (fun c => c ≠ ':')) with
      | none =>
        rw [hpf] at h
        simp at h
      | some q =>
        rw [hpf] at h
        have hqc : q = c := by injection h
        exact congrArg some hqc

/-- Counterexample for C3 as stated: at the validator reply
`CONFIDENCE: 0.9: note` the code stores 0.9 (Python `split(':')[1]` takes
the text *between* the first and second colon), while the claim's
described parse — the whole text after the first colon, trimmed, parsed
as a decimal — has no value at all. -/
theorem C3_counterexample :
    validateAnswer defaultSettings (Except.ok "CONFIDENCE: 0.9: note") (initialState "q") =
      Except.ok { initialState "q" with confidence := mkRat 9 10 } ∧
    specConfidenceAfterFirstColon "CONFIDENCE: 0.9: note" = none := by
  exact ⟨by decide, by decide⟩

/-- C3 (amended): the confidence stored by `validate_answer` is the float
parsed from the first line containing `CONFIDENCE:`, taking the text
*between* the first and the second colon of that line (Python
`split(':')[1]`), trimmed; with no such line the stored confidence is
exactly 0.8. -/
theorem C3_confidence_parse_amended (s : Settings) (v : String) (st st' : AgentState)
    (h : validateAnswer s (Except.ok v) st = Except.ok st') :
    specConfidenceBetweenColons v = some st'.confidence ∧
    ((splitLines v.data).filter (fun l => containsL "CONFIDENCE:".data l) = [] →
      st'.confidence = mkRat 4 5) := by
  obtain ⟨hpc, _, _, _, _⟩ := validateAnswer_ok_shape s v st st' h
  constructor
  · exact parseConfidence_between v st'.confidence hpc
  · intro hnil
    unfold parseConfidence at hpc
    rw [hnil] at hpc
    have : mkRat 4 5 = st'.confidence := by injection hpc
    rw [← this]

/-- Witness for C3 (amended) at the replies `CONFIDENCE: 0.9: note` and
(for the default) `no confidence line here`. -/
theorem C3_confidence_parse_amended_witness :
    specConfidenceBetweenColons "CONFIDENCE: 0.9: note" = some (mkRat 9 10) ∧
    specConfidenceBetweenColons "no confidence line here" = some (mkRat 4 5) := by
  have h1 := C3_confidence_parse_amended defaultSettings "CONFIDENCE: 0.9: note"
    (initialState "q") { initialState "q" with confidence := mkRat 9 10 } (by decide)
  have h2 := C3_confidence_parse_amended defaultSettings "no confidence line here"
    (initialState "q") { initialState "q" with confidence := mkRat 4 5 } (by decide)
  exact ⟨h1.1, h2.1⟩

/-! ## String-join facts used for C9 -/

theorem mkRat_7_10 : mkRat 7 10 = 7/10 := by
  rw [Rat.mkRat_eq_divInt, Rat.divInt_eq_div]
  norm_num

theorem strJoin_cons (s : String) (l : List String) :
    String.join (s :: l) = s ++ String.join l := by
  have key : ∀ (m : List String) (a : String),
      List.foldl (· ++ ·) a m = a ++ List.foldl (· ++ ·) "" m := by
    intro m
    induction m with
    | nil =>
      intro a
      simp
    | cons x xs ih =>
      intro a
      show List.foldl (· ++ ·) (a ++ x) xs = a ++ List.foldl (· ++ ·) ("" ++ x) xs
      rw [ih (a ++ x), ih ("" ++ x)]
      simp [String.append_assoc]
  show List.foldl (· ++ ·) ("" ++ s) l = s ++ List.foldl (· ++ ·) "" l
  rw [key l ("" ++ s)]
  simp

theorem formatLoop_eq (rs : List RAGResult) : ∀ (i : ℕ) (acc : String),
    formatLoop i acc rs =
      acc ++ String.join ((List.enumFrom i rs).map (fun p => docBlock p.1 p.2)) := by
  induction rs with
  | nil =>
    intro i acc
    show acc = acc ++ String.join []
    simp [String.join]
  | cons r rest ih =>
    intro i acc
    show formatLoop (i + 1) (acc ++ docBlock i r) rest = _
    rw [ih (i + 1) (acc ++ docBlock i r)]
    simp only [List.enumFrom_cons, List.map_cons, strJoin_cons, String.append_assoc]

/-- C9: Retrieved-knowledge serialization. For a non-empty ranked result
list the block is the aggregate header (count and average confidence),
then one `docBlock` per result in order — confidence score, source,
content, non-source metadata — and the low-confidence advisory appended
iff the average confidence is below 0.7; for an empty result list the
block is the fixed no-results message recommending clarification or
escalation. -/
theorem C9_serialization (rs : List RAGResult) (q q2 : String) (h : rs ≠ []) :
    formatResults rs q =
      "Found " ++ toString rs.length ++ " relevant documents (avg confidence: "
        ++ fmt2 ((rs.map RAGResult.score).sum / (rs.length : ℚ)) ++ "):\n\n"
        ++ String.join ((List.enumFrom 1 rs).map (fun p => docBlock p.1 p.2))
        ++ (if (rs.map RAGResult.score).sum / (rs.length : ℚ) < 7/10 then
              "\n⚠️ Note: Confidence is moderate. Consider asking clarifying questions.\n"
            else "") ∧
    formatResults [] q2 = formatNoResults ∧
    (∀ s : Settings, ragToolRun s (Except.ok []) q2 = formatNoResults) := by
  have havg : ratDivNat (ratSum (List.map RAGResult.score rs)) rs.length =
      (rs.map RAGResult.score).sum / (rs.length : ℚ) := by
    rw [ratDivNat_eq, ratSum_eq_sum]
  refine ⟨?_, rfl, fun s => rfl⟩
  unfold formatResults
  rw [if_neg h]
  dsimp only
  rw [havg, mkRat_7_10, formatLoop_eq rs 1]
  by_cases hc : (rs.map RAGResult.score).sum / (rs.length : ℚ) < 7/10
  · rw [if_pos hc, if_pos hc]
  · rw [if_neg hc, if_neg hc]
    simp [String.append_assoc]

/-- Witness for C9 at a one-element result list whose average confidence
0.6 lies below 0.7 (advisory branch exercised). -/
theorem C9_serialization_witness :
    formatResults [c9row] "q" =
      "Found " ++ toString ([c9row] : List RAGResult).length
        ++ " relevant documents (avg confidence: "
        ++ fmt2 ((([c9row] : List RAGResult).map RAGResult.score).sum
            / ((([c9row] : List RAGResult).length : ℕ) : ℚ)) ++ "):\n\n"
        ++ String.join ((List.enumFrom 1 ([c9row] : List RAGResult)).map
            (fun p => docBlock p.1 p.2))
        ++ (if (([c9row] : List RAGResult).map RAGResult.score).sum
              / ((([c9row] : List RAGResult).length : ℕ) : ℚ) < 7/10 then
              "\n⚠️ Note: Confidence is moderate. Consider asking clarifying questions.\n"
            else "") :=
  (C9_serialization [c9row] "q" "q" (by decide)).1

/-! ## Prefix and line lemmas used for C7 -/

theorem findSourcesFuel_nil (n : ℕ) : findSourcesFuel n [] = [] := by
  cases n <;> rfl

theorem findSourcesFuel_cons (n : ℕ) (c : Char) (cs : List Char) :
    findSourcesFuel (n + 1) (c :: cs) =
      if isPrefixL srcPat (c :: cs) then
        if (takeLine (cs.drop 7)).1 = [] then findSourcesFuel n cs
        else String.mk (takeLine (cs.drop 7)).1 :: findSourcesFuel n (takeLine (cs.drop 7)).2
      else findSourcesFuel n cs := rfl

theorem isPrefixL_trans {a b c : List Char} (h1 : isPrefixL a b = true)
    (h2 : isPrefixL b c = true) : isPrefixL a c = true := by
  induction a generalizing b c with
  | nil => rfl
  | cons x xs ih =>
    cases b with
    | nil => simp [isPrefixL] at h1
    | cons y ys =>
      cases c with
      | nil => simp [isPrefixL] at h2
      | cons z zs =>
        simp only [isPrefixL, Bool.and_eq_true, decide_eq_true_eq] at h1 h2 ⊢
        exact ⟨h1.1.trans h2.1, ih h1.2 h2.2⟩

theorem isPrefixL_takeWhile (q : Char → Bool) (l : List Char) :
    isPrefixL (l.takeWhile q) l = true := by
  induction l with
  | nil => rfl
  | cons c cs ih =>
    rw [List.takeWhile_cons]
    by_cases hq : q c
    · rw [if_pos hq]
      simp [isPrefixL, ih]
    · rw [if_neg hq]
      rfl

theorem isPrefixL_self_append (p x : List Char) : isPrefixL p (p ++ x) = true := by
  induction p with
  | nil => rfl
  | cons c cs ih => simp [isPrefixL, ih]

theorem isPrefixL_append_eq {p l : List Char} (h : isPrefixL p l = true) :
    l = p ++ l.drop p.length := by
  induction p generalizing l with
  | nil => simp
  | cons c cs ih =>
    cases l with
    | nil => simp [isPrefixL] at h
    | cons x xs =>
      simp only [isPrefixL, Bool.and_eq_true, decide_eq_true_eq] at h
      have := ih h.2
      simp only [List.length_cons, List.cons_append, List.drop_succ_cons]
      rw [h.1, ← this]

theorem takeLine_cons_nl (ms : List Char) : takeLine ('\n' :: ms) = ([], ms) := by
  simp [takeLine]

theorem takeLine_cons_of_ne (c : Char) (ms : List Char) (h : c ≠ '\n') :
    takeLine (c :: ms) = (c :: (takeLine ms).1, (takeLine ms).2) := by
  simp [takeLine, List.takeWhile_cons, List.dropWhile_cons, h]

theorem takeLine_append_noNl (xs ys : List Char) (h : ∀ c ∈ xs, c ≠ '\n') :
    takeLine (xs ++ ys) = (xs ++ (takeLine ys).1, (takeLine ys).2) := by
  induction xs with
  | nil => simp
  | cons x xs ih =>
    have hx : x ≠ '\n' := h x (by simp)
    rw [List.cons_append, takeLine_cons_of_ne x (xs ++ ys) hx,
      ih (fun c hc => h c (by simp [hc]))]
    simp

theorem splitLines_takeLine (m : List Char) :
    splitLines m = (takeLine m).1 ::
      (if '\n' ∈ m then splitLines (takeLine m).2 else []) := by
  induction m with
  | nil => simp [splitLines, splitChar, takeLine]
  | cons c ms ih =>
    by_cases hc : c = '\n'
    · subst hc
      rw [takeLine_cons_nl]
      show splitChar '\n' ('\n' :: ms) = _
      rw [splitChar_cons, if_pos rfl]
      simp only [List.mem_cons, true_or, if_pos]
      rfl
    · rw [takeLine_cons_of_ne c ms hc]
      show splitChar '\n' (c :: ms) = _
      rw [splitChar_cons, if_neg hc]
      show (match splitLines ms with
        | l :: ls => (c :: l) :: ls
        | [] => [[c]]) = _
      rw [ih]
      have hmem : ('\n' ∈ c :: ms) ↔ ('\n' ∈ ms) := by
        constructor
        · intro h1
          rcases List.mem_cons.mp h1 with h2 | h2
          · exact absurd h2.symm hc
          · exact h2
        · exact fun h1 => List.mem_cons_of_mem _ h1
      simp only [hmem]

theorem splitLines_append_nl (xs ys : List Char) (h : ∀ c ∈ xs, c ≠ '\n') :
    splitLines (xs ++ '\n' :: ys) = xs :: splitLines ys := by
  rw [splitLines_takeLine (xs ++ '\n' :: ys),
    takeLine_append_noNl xs ('\n' :: ys) h, takeLine_cons_nl]
  rw [if_pos (by simp)]
  simp

theorem takeLine_decomp (m : List Char) :
    ('\n' ∈ m → m = (takeLine m).1 ++ '\n' :: (takeLine m).2) ∧
    ('\n' ∉ m → (takeLine m).1 = m ∧ (takeLine m).2 = []) := by
  induction m with
  | nil => simp [takeLine]
  | cons c ms ih =>
    by_cases hc : c = '\n'
    · subst hc
      rw [takeLine_cons_nl]
      constructor
      · intro _
        rfl
      · intro hmem
        simp at hmem
    · rw [takeLine_cons_of_ne c ms hc]
      constructor
      · intro hmem
        have hm : '\n' ∈ ms := by
          rcases List.mem_cons.mp hmem with h1 | h1
          · exact absurd h1.symm hc
          · exact h1
        have := ih.1 hm
        simp only [List.cons_append]
        rw [← this]
      · intro hmem
        have hm : '\n' ∉ ms := fun h1 => hmem (List.mem_cons_of_mem _ h1)
        obtain ⟨e1, e2⟩ := ih.2 hm
        simp [e1, e2]

theorem afterFirstMarker_cons (c : Char) (cs : List Char) :
    afterFirstMarker (c :: cs) =
      if isPrefixL srcPat (c :: cs) then some (cs.drop 7) else afterFirstMarker cs := rfl

theorem afterFirstMarker_of_isPrefixL {l : List Char} (h : isPrefixL srcPat l = true) :
    afterFirstMarker l = some (l.drop 8) := by
  cases l with
  | nil => simp [isPrefixL, srcPat] at h
  | cons c cs =>
    rw [afterFirstMarker_cons, if_pos h]
    rfl

theorem afterFirstMarker_cons_of_not (c : Char) (cs : List Char)
    (h : ¬ isPrefixL srcPat (c :: cs) = true) :
    afterFirstMarker (c :: cs) = afterFirstMarker cs := by
  rw [afterFirstMarker_cons, if_neg h]

theorem findSourcesFuel_eq (fuel : ℕ) :
    ∀ l : List Char, l.length ≤ fuel →
      findSourcesFuel fuel l = (splitLines l).filterMap lineSourceCapture := by
  induction fuel with
  | zero =>
    intro l hlen
    have hnil : l = [] := List.eq_nil_of_length_eq_zero (Nat.le_zero.mp hlen)
    subst hnil
    decide
  | succ n ih =>
    intro l hlen
    cases l with
    | nil =>
      rw [findSourcesFuel_nil]
      decide
    | cons c cs =>
      have hcslen : cs.length ≤ n := by
        simpa using Nat.le_of_succ_le_succ (by simpa using hlen)
      rw [findSourcesFuel_cons]
      by_cases hp : isPrefixL srcPat (c :: cs) = true
      · rw [if_pos hp]
        have hl : c :: cs = srcPat ++ cs.drop 7 := by
          have h8 := isPrefixL_append_eq hp
          rw [show srcPat.length = 8 from by decide] at h8
          simpa using h8
        have hcs : cs = srcPat.tail ++ cs.drop 7 := by
          injection hl
        by_cases hcap : (takeLine (cs.drop 7)).1 = []
        · rw [if_pos hcap]
          rw [ih cs hcslen]
          cases hr : cs.drop 7 with
          | nil =>
            have hccs : c :: cs = srcPat := by rw [hl, hr]; simp
            have hcs2 : cs = srcPat.tail := by rw [hcs, hr]; simp
            rw [hccs, hcs2]
            decide
          | cons r0 r1 =>
            have hr0 : r0 = '\n' := by
              by_contra hne
              rw [hr, takeLine_cons_of_ne r0 r1 hne] at hcap
              simp at hcap
            subst hr0
            have hccs : c :: cs = srcPat ++ '\n' :: r1 := by rw [hl, hr]
            rw [hccs]
            have hcs2 : cs = srcPat.tail ++ '\n' :: r1 := by rw [hcs, hr]
            rw [hcs2]
            rw [splitLines_append_nl srcPat.tail r1 (by decide),
              splitLines_append_nl srcPat r1 (by decide)]
            rw [List.filterMap_cons, List.filterMap_cons]
            rw [show lineSourceCapture srcPat.tail = none from by decide,
              show lineSourceCapture srcPat = none from by decide]
        · rw [if_neg hcap]
          obtain ⟨cap, rst, htl⟩ : ∃ a b, takeLine (cs.drop 7) = (a, b) := ⟨_, _, rfl⟩
          rw [htl] at hcap ⊢
          dsimp only at hcap ⊢
          have hcapw : (cs.drop 7).takeWhile (fun x => x ≠ '\n') = cap := by
            have := congrArg Prod.fst htl
            simpa [takeLine] using this
          have hnoNlcap : ∀ ch ∈ cap, ch ≠ '\n' := by
            intro ch hch
            rw [← hcapw] at hch
            have := List.mem_takeWhile_imp hch
            simpa using this
          by_cases hnl : '\n' ∈ cs.drop 7
          · have hdec := (takeLine_decomp (cs.drop 7)).1 hnl
            rw [htl] at hdec
            dsimp only at hdec
            have hrstlen : rst.length ≤ n := by
              have hc1 := congrArg List.length hdec
              have hc2 : (cs.drop 7).length ≤ cs.length := by
                simp [List.length_drop]
              simp [List.length_append] at hc1
              omega
            rw [ih rst hrstlen]
            have hccs : c :: cs = (srcPat ++ cap) ++ '\n' :: rst := by
              rw [hl, hdec]
              simp [List.append_assoc]
            rw [hccs]
            rw [splitLines_append_nl (srcPat ++ cap) rst
              (by
                intro ch hch
                rcases List.mem_append.mp hch with h1 | h1
                · exact (by decide : ∀ x ∈ srcPat, x ≠ '\n') ch h1
                · exact hnoNlcap ch h1)]
            rw [List.filterMap_cons]
            have hcapt : lineSourceCapture (srcPat ++ cap) = some (String.mk cap) := by
              unfold lineSourceCapture
              rw [afterFirstMarker_of_isPrefixL (isPrefixL_self_append srcPat cap)]
              rw [show (8 : ℕ) = srcPat.length from rfl, List.drop_left]
              dsimp only
              rw [if_neg hcap]
            rw [hcapt]
          · obtain ⟨e1, e2⟩ := (takeLine_decomp (cs.drop 7)).2 hnl
            rw [htl] at e1 e2
            dsimp only at e1 e2
            subst e2
            rw [findSourcesFuel_nil]
            have hccs : c :: cs = srcPat ++ cap := by rw [hl, ← e1]
            rw [hccs]
            have hsl : splitLines (srcPat ++ cap) = [srcPat ++ cap] := by
              rw [splitLines_takeLine (srcPat ++ cap)]
              have hmem : ¬ '\n' ∈ srcPat ++ cap := by
                intro hcon
                rcases List.mem_append.mp hcon with h1 | h1
                · revert h1
                  decide
                · exact hnoNlcap '\n' h1 rfl
              rw [if_neg hmem]
              rw [takeLine_append_noNl srcPat cap (by decide)]
              have := (takeLine_decomp cap).2 (fun hcon => hnoNlcap '\n' hcon rfl)
              rw [this.1]
            rw [hsl, List.filterMap_cons]
            have hcapt : lineSourceCapture (srcPat ++ cap) = some (String.mk cap) := by
              unfold lineSourceCapture
              rw [afterFirstMarker_of_isPrefixL (isPrefixL_self_append srcPat cap)]
              rw [show (8 : ℕ) = srcPat.length from rfl, List.drop_left]
              dsimp only
              rw [if_neg hcap]
            rw [hcapt]
            rfl
      · rw [if_neg hp]
        rw [ih cs hcslen]
        by_cases hc : c = '\n'
        · subst hc
          have hsl : splitLines ('\n' :: cs) = [] :: splitLines cs := by
            show splitChar '\n' ('\n' :: cs) = _
            rw [splitChar_cons, if_pos rfl]
            rfl
          rw [hsl, List.filterMap_cons]
          rw [show lineSourceCapture [] = none from rfl]
        · obtain ⟨t, ht⟩ := splitChar_head_takeWhile '\n' cs
          have hsl : splitLines (c :: cs) =
              (c :: cs.takeWhile (fun x => x ≠ '\n')) :: t := by
            show splitChar '\n' (c :: cs) = _
            rw [splitChar_cons, if_neg hc]
            rw [show splitChar '\n' cs = _ from ht]
          rw [hsl, show splitLines cs = _ from ht]
          rw [List.filterMap_cons, List.filterMap_cons]
          have hnp : ¬ isPrefixL srcPat (c :: cs.takeWhile (fun x => x ≠ '\n')) = true := by
            intro hcon
            apply hp
            refine isPrefixL_trans hcon ?_
            simp only [isPrefixL, decide_eq_true_eq, Bool.and_eq_true]
            exact ⟨trivial, isPrefixL_takeWhile _ cs⟩
          rw [show lineSourceCapture (c :: cs.takeWhile (fun x => x ≠ '\n')) =
              lineSourceCapture (cs.takeWhile (fun x => x ≠ '\n')) from by
            unfold lineSourceCapture
            rw [afterFirstMarker_cons_of_not _ _ hnp]]

theorem extractSources_eq (t : String) : extractSources t = specSourcesAnywhere t := by
  by_cases h : t = ""
  · subst h
    decide
  · unfold extractSources specSourcesAnywhere findSources
    rw [if_neg h]
    exact findSourcesFuel_eq t.data.length t.data le_rfl

/-- C7 (counterexample): the spec says one capture per line *matching a
literal `Source: <name>` prefix*, but `re.findall(r'Source: (.+?)(?:\n|$)')`
captures after the first occurrence of `Source: ` *anywhere* in a line. A
retrieved document whose content holds the line `xxSource: evil` yields the
extra source `"evil"` in the final response, which the spec-described
line-prefix scan does not produce. -/
theorem C7_counterexample :
    (processMessage defaultSettings c7oracle "q").sources = ["real.pdf", "evil"] ∧
    specSourcesByLineStart c7text = ["real.pdf"] ∧
    extractSources c7text ≠ specSourcesByLineStart c7text := by
  decide

/-- C7 (amended): the final response's sources list is obtained by scanning
the retrieved-knowledge block line by line, capturing, for each line that
*contains* the literal `Source: ` (not necessarily as a line prefix), the
non-empty remainder of the line after its first occurrence, in order of
appearance; for retrieved-knowledge text with the lines
`Source: return_policy.pdf` and `Source: shipping_policy.pdf` the list is
`["return_policy.pdf", "shipping_policy.pdf"]` in that order, and when the
retrieved-knowledge block is empty the list is empty. -/
theorem C7_source_extraction_amended :
    (∀ t : String, extractSources t = specSourcesAnywhere t) ∧
    extractSources "" = [] ∧
    extractSources "h\nSource: return_policy.pdf\nx\nSource: shipping_policy.pdf\n"
      = ["return_policy.pdf", "shipping_policy.pdf"] := by
  refine ⟨extractSources_eq, by decide, by decide⟩

/-- C7 (amended, witness): the equivalence instantiated at the
retrieved-knowledge block of the concrete turn `c7oracle`. -/
theorem C7_source_extraction_amended_witness :
    extractSources c7text = specSourcesAnywhere c7text := by
  exact C7_source_extraction_amended.1 c7text
